import Mathlib

/-!
Verification of the limare texture core (src/limare/lib/texture.c).

The development shallowly embeds the C source: machine words are `Nat`
taken modulo `2 ^ 32` where C unsigned overflow matters, byte memory is a
function `Nat → Nat` mutated by an explicit list of stores, and the arena
state is threaded explicitly.  The two memory buffers handed to
`texture_24_mipmap` (the destination level and the source level) are
disjoint regions produced by the bump allocator, so they are modelled as
two separate byte memories, matching the non-aliasing guarantee of the
layout planner.
-/

/-- Modelled from the spec: the ALIGN macro of limare.h (which is not under
src/); spec section 4.2 uses align(x, a), rounding x up to the next
multiple of a (all alignments used are powers of two). -/
def ALIGN (x a : Nat) : Nat := ((x + a - 1) / a) * a

/-- The 16-entry bit-spreading table, texture.c lines 50-68. -/
def space_filler_indices : List Nat :=
  [0x00, 0x01, 0x04, 0x05, 0x10, 0x11, 0x14, 0x15,
   0x40, 0x41, 0x44, 0x45, 0x50, 0x51, 0x54, 0x55]

/-- texture.c lines 70-74: swizzle index of an intra-tile coordinate. -/
def space_filler_index (x y : Nat) : Nat :=
  space_filler_indices.getD (y ^^^ x) 0 ||| (space_filler_indices.getD y 0 <<< 1)

/-- A single byte store: memories are functions from byte offsets to values. -/
def store (m : Nat → Nat) (p : Nat × Nat) : Nat → Nat :=
  fun a => if a = p.1 then p.2 else m a

/-- Run a list of stores left to right (program order of the C loops). -/
def runStores (m : Nat → Nat) (l : List (Nat × Nat)) : Nat → Nat :=
  l.foldl store m

/-- The swizzled byte offset of pixel (x, y) in a level whose block pitch
(in 16x16 tiles) is `pitch`; this is the dest arithmetic of
texture_24_swizzle lines 98-100 (3 * 256 = 768 bytes per tile). -/
def swizzled_offset (pitch x y : Nat) : Nat :=
  768 * (pitch * (y >>> 4) + (x >>> 4)) +
    3 * space_filler_index (x &&& 15) (y &&& 15)

/-- struct texture_level; fields as used by texture.c (texture.h itself is
a declaration header outside src/); `dest` is kept as a byte offset. -/
structure texture_level where
  level : Nat
  width : Nat
  height : Nat
  size : Nat
  dest : Nat
  mem_physical : Nat
deriving Inhabited, DecidableEq

/-- Modelled from the spec: the arena fields of struct limare_state
(limare.h, not under src/): total size, used offset, CPU base, physical
base (spec section 3, MemoryArena). -/
structure limare_state where
  aux_mem_size : Nat
  aux_mem_used : Nat
  aux_mem_address : Nat
  aux_mem_physical : Nat
deriving Inhabited, DecidableEq

/-- texture.c lines 76-107, texture_24_swizzle: populate level 0 from the
linear source buffer.  The write list is the loop body in program order. -/
def texture_24_swizzle (width height : Nat) (pixels dest0 : Nat → Nat) :
    Nat → Nat :=
  let block_pitch := ALIGN width 16 >>> 4
  let source_pitch := ALIGN (width * 3) 4
  let writes := (List.range height).flatMap (fun y =>
    (List.range width).flatMap (fun x =>
      let index := space_filler_index (x &&& 15) (y &&& 15)
      let d := 768 * ((y >>> 4) * block_pitch + (x >>> 4)) + 3 * index
      let s := y * source_pitch + 3 * x
      [(d, pixels s), (d + 1, pixels (s + 1)), (d + 2, pixels (s + 2))]))
  runStores dest0 writes

/-- texture.c lines 124-208, texture_24_mipmap: derive level `dst` from
level `src`.  `srcMem` and `dstMem` are the two (disjoint) level buffers;
addresses are byte offsets from the respective level base pointers. -/
def texture_24_mipmap (dst src : texture_level) (srcMem dstMem : Nat → Nat) :
    Nat → Nat :=
  let block_pitch := ALIGN dst.width 16 >>> 4
  let source_pitch := ALIGN src.width 16 >>> 4
  let writes :=
    if src.width = 1 then
      (List.range dst.height).flatMap (fun y =>
        let offset := space_filler_index 0 (y &&& 15)
        let d := 768 * (block_pitch * (y >>> 4)) + 3 * offset
        let s := 768 * (source_pitch * (y >>> 3)) + 3 * ((offset <<< 2) &&& 0xFF)
        [(d, (srcMem s + srcMem (s + 9)) / 2),
         (d + 1, (srcMem (s + 1) + srcMem (s + 10)) / 2),
         (d + 2, (srcMem (s + 2) + srcMem (s + 11)) / 2)])
    else if src.height = 1 then
      (List.range dst.width).flatMap (fun x =>
        let offset := space_filler_index (x &&& 15) 0
        let d := 768 * (x >>> 4) + 3 * offset
        let s := 768 * (x >>> 3) + 3 * ((offset <<< 2) &&& 0xFF)
        [(d, (srcMem s + srcMem (s + 3)) / 2),
         (d + 1, (srcMem (s + 1) + srcMem (s + 4)) / 2),
         (d + 2, (srcMem (s + 2) + srcMem (s + 5)) / 2)])
    else
      (List.range dst.height).flatMap (fun y =>
        (List.range dst.width).flatMap (fun x =>
          let offset := space_filler_index (x &&& 15) (y &&& 15)
          let d := 768 * (block_pitch * (y >>> 4) + (x >>> 4)) + 3 * offset
          let s := 768 * (source_pitch * (y >>> 3) + (x >>> 3)) +
            3 * ((offset <<< 2) &&& 0xFF)
          [(d, (srcMem s + srcMem (s + 3) + srcMem (s + 6) + srcMem (s + 9)) / 4),
           (d + 1, (srcMem (s + 1) + srcMem (s + 4) + srcMem (s + 7) +
             srcMem (s + 10)) / 4),
           (d + 2, (srcMem (s + 2) + srcMem (s + 5) + srcMem (s + 8) +
             srcMem (s + 11)) / 4)]))
  runStores dstMem writes

/-- texture.c lines 217-235, first loop of texture_24_create: per-level
dimensions and byte size (dest/mem_physical still 0 from calloc). -/
def texture_24_level (w h i : Nat) : texture_level :=
  let lw := if w >>> i = 0 then 1 else w >>> i
  let lh := if h >>> i = 0 then 1 else h >>> i
  let width := ALIGN lw 16
  let height := ALIGN lh 16
  let pitch := ALIGN (width * 3) 4
  { level := i, width := lw, height := lh,
    size := ALIGN (pitch * height) 0x400, dest := 0, mem_physical := 0 }

/-- Total byte size summed by the first loop of texture_24_create. -/
def texture_24_total_size (w h levels : Nat) : Nat :=
  ((List.range levels).map (fun i => (texture_24_level w h i).size)).sum

/-- texture.c lines 244-251, second loop of texture_24_create: bump
allocate each level; returns the updated levels and the final used offset. -/
def texture_24_commit (addr physBase : Nat) :
    Nat → List texture_level → List texture_level × Nat
  | used, [] => ([], used)
  | used, l :: ls =>
    let l' := { l with dest := addr + used, mem_physical := physBase + used }
    let rest := texture_24_commit addr physBase (used + l.size) ls
    (l' :: rest.1, rest.2)

/-- texture.c lines 210-259, texture_24_create: size planning, capacity
check, and allocation commit.  The pixel transfers of lines 253-256 act on
the level buffers and are modelled by texture_24_contents below. -/
def texture_24_create (s : limare_state) (w h levels : Nat) :
    Option (List texture_level) × limare_state :=
  let size := texture_24_total_size w h levels
  if s.aux_mem_size - s.aux_mem_used < size then (none, s)
  else
    let c := texture_24_commit s.aux_mem_address s.aux_mem_physical
      s.aux_mem_used ((List.range levels).map (texture_24_level w h))
    (some c.1, { s with aux_mem_used := c.2 })

/-- texture.c lines 253-256: the byte contents of level k after
texture_24_create has run.  Each level buffer starts as allocator-provided
`junk` and is then filled, level 0 by the swizzler and level k+1 from
level k by the mip generator. -/
def texture_24_contents (w h : Nat) (pixels junk : Nat → Nat) :
    Nat → (Nat → Nat)
  | 0 => texture_24_swizzle w h pixels junk
  | k + 1 => texture_24_mipmap (texture_24_level w h (k + 1))
      (texture_24_level w h k) (texture_24_contents w h pixels junk k) junk

/-- texture.c lines 261-338, texture_descriptor_level_attach: write level
i's physical address field into the 16-word descriptor.  C unsigned
arithmetic: left shifts wrap modulo 2 ^ 32 and the C bitwise complement
~mask on a 32-bit word is written 0xFFFFFFFF ^^^ mask. -/
def texture_descriptor_level_attach (i phys : Nat) (d : Fin 16 → Nat) :
    Fin 16 → Nat :=
  match i with
  | 0 =>
    let d6 := Function.update d 6
      ((d 6 &&& (0xFFFFFFFF ^^^ 0xC0000000)) ||| ((phys <<< 24) % 2 ^ 32))
    Function.update d6 7
      ((d6 7 &&& (0xFFFFFFFF ^^^ 0x00FFFFFF)) ||| (phys >>> 8))
  | 1 =>
    let d7 := Function.update d 7
      ((d 7 &&& (0xFFFFFFFF ^^^ 0xFF000000)) ||| ((phys <<< 18) % 2 ^ 32))
    Function.update d7 8
      ((d7 8 &&& (0xFFFFFFFF ^^^ 0x0003FFFF)) ||| (phys >>> 14))
  | 2 =>
    let d8 := Function.update d 8
      ((d 8 &&& (0xFFFFFFFF ^^^ 0xFFFC0000)) ||| ((phys <<< 12) % 2 ^ 32))
    Function.update d8 9
      ((d8 9 &&& (0xFFFFFFFF ^^^ 0x00000FFF)) ||| (phys >>> 20))
  | 3 =>
    let d9 := Function.update d 9
      ((d 9 &&& (0xFFFFFFFF ^^^ 0xFFFFF000)) ||| ((phys <<< 6) % 2 ^ 32))
    Function.update d9 10
      ((d9 10 &&& (0xFFFFFFFF ^^^ 0x0000003F)) ||| (phys >>> 26))
  | 4 =>
    Function.update d 10
      ((d 10 &&& (0xFFFFFFFF ^^^ 0xFFFFFFC0)) ||| (phys % 2 ^ 32))
  | 5 =>
    Function.update d 11
      ((d 11 &&& (0xFFFFFFFF ^^^ 0x03FFFFFF)) ||| (phys >>> 6))
  | 6 =>
    let d11 := Function.update d 11
      ((d 11 &&& (0xFFFFFFFF ^^^ 0xFC000000)) ||| ((phys <<< 20) % 2 ^ 32))
    Function.update d11 12
      ((d11 12 &&& (0xFFFFFFFF ^^^ 0x000FFFFF)) ||| (phys >>> 12))
  | 7 =>
    let d12 := Function.update d 12
      ((d 12 &&& (0xFFFFFFFF ^^^ 0xFFF00000)) ||| ((phys <<< 14) % 2 ^ 32))
    Function.update d12 13
      ((d12 13 &&& (0xFFFFFFFF ^^^ 0x00003FFF)) ||| (phys >>> 18))
  | 8 =>
    let d13 := Function.update d 13
      ((d 13 &&& (0xFFFFFFFF ^^^ 0xFFFFC000)) ||| ((phys <<< 8) % 2 ^ 32))
    Function.update d13 14
      ((d13 14 &&& (0xFFFFFFFF ^^^ 0x000000FF)) ||| (phys >>> 24))
  | 9 =>
    let d14 := Function.update d 14
      ((d 14 &&& (0xFFFFFFFF ^^^ 0xFFFFFF00)) ||| ((phys <<< 2) % 2 ^ 32))
    Function.update d14 15
      ((d14 15 &&& (0xFFFFFFFF ^^^ 0x03)) ||| (phys >>> 30))
  | 10 =>
    Function.update d 15
      ((d 15 &&& (0xFFFFFFFF ^^^ 0x0FFFFFFC)) ||| (phys >>> 4))
  | _ => d

/-- The fixed per-level rule of texture.c lines 261-338: the descriptor
bits that constitute level i's address field in word w (the masks cleared
by the corresponding case of texture_descriptor_level_attach). -/
def descriptor_field_mask (i : Nat) (w : Fin 16) : Nat :=
  match i with
  | 0 => if w = 6 then 0xC0000000 else if w = 7 then 0x00FFFFFF else 0
  | 1 => if w = 7 then 0xFF000000 else if w = 8 then 0x0003FFFF else 0
  | 2 => if w = 8 then 0xFFFC0000 else if w = 9 then 0x00000FFF else 0
  | 3 => if w = 9 then 0xFFFFF000 else if w = 10 then 0x0000003F else 0
  | 4 => if w = 10 then 0xFFFFFFC0 else 0
  | 5 => if w = 11 then 0x03FFFFFF else 0
  | 6 => if w = 11 then 0xFC000000 else if w = 12 then 0x000FFFFF else 0
  | 7 => if w = 12 then 0xFFF00000 else if w = 13 then 0x00003FFF else 0
  | 8 => if w = 13 then 0xFFFFC000 else if w = 14 then 0x000000FF else 0
  | 9 => if w = 14 then 0xFFFFFF00 else if w = 15 then 0x03 else 0
  | 10 => if w = 15 then 0x0FFFFFFC else 0
  | _ => 0

/-- texture.c lines 340-347: attach every level's address field. -/
def texture_descriptor_levels_attach (levels : Nat) (lvls : List texture_level)
    (d : Fin 16 → Nat) : Fin 16 → Nat :=
  (List.range levels).foldl
    (fun d i => texture_descriptor_level_attach i
      ((lvls.getD i default).mem_physical) d) d

/-- texture.c lines 365-376: the level-count loop
`for (i = 0; max >> i; i++);` counts iterations until the shift is 0;
the fuel argument (initially the value itself) bounds the recursion. -/
def levels_loop_aux : Nat → Nat → Nat
  | 0, _ => 0
  | fuel + 1, m => if m = 0 then 0 else levels_loop_aux fuel (m >>> 1) + 1

/-- Number of iterations of the texture_create level-count loop on m. -/
def levels_loop (m : Nat) : Nat := levels_loop_aux m m

/-- Modelled from the spec: the LIMA_TEXEL_FORMAT_RGB_888 selector value
comes from formats.h, which is not under src/; the claims only depend on
it being a fixed distinguished constant (spec section 6: 24-bit packed
RGB is the single supported format). -/
def LIMA_TEXEL_FORMAT_RGB_888 : Nat := 0x0B

/-- struct texture as produced by texture_create (texture.h is a
declaration header outside src/): dimensions, format, level count, levels
and the 16-word descriptor. -/
structure texture where
  width : Nat
  height : Nat
  format : Nat
  levels : Nat
  level : List texture_level
  descriptor : Fin 16 → Nat

/-- texture.c lines 349-416, texture_create: dimension check, level
count, format dispatch, allocation, then descriptor packing.  Failure
returns no texture (the C NULL) and the untouched arena state. -/
def texture_create (s : limare_state) (w h format : Nat) (mipmap : Bool) :
    Option texture × limare_state :=
  if 4096 < w ∨ 4096 < h then (none, s)
  else
    let levels := if mipmap then levels_loop (if h < w then w else h) else 1
    if format = LIMA_TEXEL_FORMAT_RGB_888 then
      match texture_24_create s w h levels with
      | (none, s') => (none, s')
      | (some lvls, s') =>
        let flag0 := 1
        let flag1 := 0
        let layout := 3
        let d0 : Fin 16 → Nat := fun _ => 0
        let d1 := Function.update d0 0
          ((flag0 <<< 7) ||| (flag1 <<< 6) ||| format)
        let d2 := Function.update d1 1 0x00000400
        let d3 := Function.update d2 2 ((w <<< 22) % 2 ^ 32)
        let d4 := Function.update d3 3 (0x10000 ||| (h <<< 3) ||| (w >>> 10))
        let d5 := Function.update d4 6 (layout <<< 13)
        (some { width := w, height := h, format := format, levels := levels,
                level := lvls,
                descriptor := texture_descriptor_levels_attach levels lvls d5 },
         s')
    else (none, s)

/-! ### Generic store-list lemmas -/

lemma runStores_cons (m : Nat → Nat) (p : Nat × Nat) (t : List (Nat × Nat)) :
    runStores m (p :: t) = runStores (store m p) t := rfl

lemma runStores_not_mem (m : Nat → Nat) (l : List (Nat × Nat)) (A : Nat)
    (h : ∀ q ∈ l, q.1 ≠ A) : runStores m l A = m A := by
  induction l generalizing m with
  | nil => rfl
  | cons p t ih =>
    rw [runStores_cons, ih (store m p) (fun q hq => h q (List.mem_cons_of_mem _ hq))]
    have hp : p.1 ≠ A := h p (List.mem_cons_self _ _)
    simp only [store]
    rw [if_neg (fun hAp => hp hAp.symm)]

lemma runStores_eq_of (m : Nat → Nat) (l : List (Nat × Nat)) (A v : Nat)
    (hall : ∀ p ∈ l, p.1 = A → p.2 = v) (hex : ∃ p ∈ l, p.1 = A) :
    runStores m l A = v := by
  induction l generalizing m with
  | nil => rcases hex with ⟨p, hp, _⟩; cases hp
  | cons p t ih =>
    by_cases ht : ∃ q ∈ t, q.1 = A
    · exact ih (store m p) (fun q hq => hall q (List.mem_cons_of_mem _ hq)) ht
    · push_neg at ht
      rcases hex with ⟨q, hq, hqA⟩
      rcases List.mem_cons.mp hq with rfl | hqt
      · rw [runStores_cons, runStores_not_mem _ _ _ ht]
        simp only [store]
        rw [if_pos hqA.symm]
        exact hall q (List.mem_cons_self _ _) hqA
      · exact absurd hqA (ht q hqt)

/-! ### Space filler facts -/

lemma table_inj : ∀ u < 16, ∀ v < 16,
    space_filler_indices.getD u 0 = space_filler_indices.getD v 0 → u = v := by
  decide

lemma table_split : ∀ u < 16, ∀ v < 16,
    ((space_filler_indices.getD u 0 ||| (space_filler_indices.getD v 0 <<< 1)) &&& 0x55
      = space_filler_indices.getD u 0) ∧
    (((space_filler_indices.getD u 0 ||| (space_filler_indices.getD v 0 <<< 1)) >>> 1) &&& 0x55
      = space_filler_indices.getD v 0) := by
  decide

lemma space_filler_index_lt : ∀ a < 16, ∀ b < 16, space_filler_index a b < 256 := by
  decide

lemma space_filler_index_inj {a b c d : Nat} (ha : a < 16) (hb : b < 16)
    (hc : c < 16) (hd : d < 16)
    (h : space_filler_index a b = space_filler_index c d) : a = c ∧ b = d := by
  have hba : b ^^^ a < 16 := Nat.xor_lt_two_pow (n := 4) hb ha
  have hdc : d ^^^ c < 16 := Nat.xor_lt_two_pow (n := 4) hd hc
  have s1 := table_split (b ^^^ a) hba b hb
  have s2 := table_split (d ^^^ c) hdc d hd
  unfold space_filler_index at h
  have e1 : space_filler_indices.getD (b ^^^ a) 0
      = space_filler_indices.getD (d ^^^ c) 0 := by rw [← s1.1, ← s2.1, h]
  have e2 : space_filler_indices.getD b 0 = space_filler_indices.getD d 0 := by
    rw [← s1.2, ← s2.2, h]
  have hbd : b = d := table_inj b hb d hd e2
  have hx : b ^^^ a = d ^^^ c := table_inj _ hba _ hdc e1
  subst hbd
  refine ⟨?_, rfl⟩
  have : b ^^^ (b ^^^ a) = b ^^^ (b ^^^ c) := by rw [hx]
  simpa [← Nat.xor_assoc, Nat.xor_self, Nat.zero_xor] using this

lemma sfi_double : ∀ a < 16, ∀ b < 16,
    ((space_filler_index a b <<< 2) &&& 0xFF)
      = space_filler_index (2 * (a % 8)) (2 * (b % 8)) ∧
    ((space_filler_index a b <<< 2) &&& 0xFF) + 1
      = space_filler_index (2 * (a % 8) + 1) (2 * (b % 8)) ∧
    ((space_filler_index a b <<< 2) &&& 0xFF) + 2
      = space_filler_index (2 * (a % 8) + 1) (2 * (b % 8) + 1) ∧
    ((space_filler_index a b <<< 2) &&& 0xFF) + 3
      = space_filler_index (2 * (a % 8)) (2 * (b % 8) + 1) := by
  decide

lemma land15_eq (n : Nat) : n &&& 15 = n % 16 := by
  have := Nat.and_pow_two_sub_one_eq_mod n 4
  norm_num at this
  exact this

lemma land15_lt (n : Nat) : n &&& 15 < 16 := by
  rw [land15_eq]; omega

/-! ### Swizzled address algebra -/

lemma block_pitch_eq (w : Nat) : ALIGN w 16 >>> 4 = (w + 15) / 16 := by
  simp only [ALIGN, Nat.shiftRight_eq_div_pow]
  omega

lemma div16_lt_block_pitch {x w : Nat} (h : x < w) : x >>> 4 < ALIGN w 16 >>> 4 := by
  rw [block_pitch_eq]
  simp only [Nat.shiftRight_eq_div_pow]
  omega

lemma swizzled_offset_inj {w x y x' y' c c' : Nat} (hx : x < w) (hx' : x' < w)
    (hc : c < 3) (hc' : c' < 3)
    (heq : swizzled_offset (ALIGN w 16 >>> 4) x y + c
      = swizzled_offset (ALIGN w 16 >>> 4) x' y' + c') :
    x = x' ∧ y = y' ∧ c = c' := by
  unfold swizzled_offset at heq
  have hI : space_filler_index (x &&& 15) (y &&& 15) < 256 :=
    space_filler_index_lt _ (land15_lt x) _ (land15_lt y)
  have hI' : space_filler_index (x' &&& 15) (y' &&& 15) < 256 :=
    space_filler_index_lt _ (land15_lt x') _ (land15_lt y')
  have hB : (ALIGN w 16 >>> 4) * (y >>> 4) + (x >>> 4)
      = (ALIGN w 16 >>> 4) * (y' >>> 4) + (x' >>> 4) := by omega
  have hIeq : space_filler_index (x &&& 15) (y &&& 15)
      = space_filler_index (x' &&& 15) (y' &&& 15) := by omega
  have hceq : c = c' := by omega
  have hxy15 := space_filler_index_inj (land15_lt x) (land15_lt y)
    (land15_lt x') (land15_lt y') hIeq
  have ha : x >>> 4 < ALIGN w 16 >>> 4 := div16_lt_block_pitch hx
  have ha' : x' >>> 4 < ALIGN w 16 >>> 4 := div16_lt_block_pitch hx'
  have hp0 : 0 < ALIGN w 16 >>> 4 := by omega
  have e1 : ((ALIGN w 16 >>> 4) * (y >>> 4) + (x >>> 4)) / (ALIGN w 16 >>> 4)
      = y >>> 4 := by
    rw [Nat.mul_add_div hp0, Nat.div_eq_of_lt ha]
    omega
  have e2 : ((ALIGN w 16 >>> 4) * (y' >>> 4) + (x' >>> 4)) / (ALIGN w 16 >>> 4)
      = y' >>> 4 := by
    rw [Nat.mul_add_div hp0, Nat.div_eq_of_lt ha']
    omega
  have hyv : y >>> 4 = y' >>> 4 := by rw [← e1, ← e2, hB]
  rw [hyv] at hB
  have hxv : x >>> 4 = x' >>> 4 := by omega
  have hx15 := hxy15.1
  have hy15 := hxy15.2
  rw [land15_eq, land15_eq] at hx15 hy15
  simp only [Nat.shiftRight_eq_div_pow] at hxv hyv
  norm_num at hxv hyv
  omega

lemma shiftRight4_double (x : Nat) : (2 * x) >>> 4 = x >>> 3 := by
  simp only [Nat.shiftRight_eq_div_pow]
  omega

lemma shiftRight4_double_succ (x : Nat) : (2 * x + 1) >>> 4 = x >>> 3 := by
  simp only [Nat.shiftRight_eq_div_pow]
  omega

lemma land15_double (x : Nat) : (2 * x) &&& 15 = 2 * ((x &&& 15) % 8) := by
  rw [land15_eq, land15_eq]
  omega

lemma land15_double_succ (x : Nat) : (2 * x + 1) &&& 15 = 2 * ((x &&& 15) % 8) + 1 := by
  rw [land15_eq, land15_eq]
  omega

lemma src_block_addr0 (p x y : Nat) :
    768 * (p * (y >>> 3) + (x >>> 3)) +
      3 * ((space_filler_index (x &&& 15) (y &&& 15) <<< 2) &&& 0xFF)
    = swizzled_offset p (2 * x) (2 * y) := by
  unfold swizzled_offset
  rw [shiftRight4_double, shiftRight4_double, land15_double, land15_double]
  have h5 := (sfi_double (x &&& 15) (land15_lt x) (y &&& 15) (land15_lt y)).1
  omega

lemma src_block_addr1 (p x y : Nat) :
    768 * (p * (y >>> 3) + (x >>> 3)) +
      3 * ((space_filler_index (x &&& 15) (y &&& 15) <<< 2) &&& 0xFF) + 3
    = swizzled_offset p (2 * x + 1) (2 * y) := by
  unfold swizzled_offset
  rw [shiftRight4_double_succ, shiftRight4_double, land15_double_succ, land15_double]
  have h5 := (sfi_double (x &&& 15) (land15_lt x) (y &&& 15) (land15_lt y)).2.1
  omega

lemma src_block_addr2 (p x y : Nat) :
    768 * (p * (y >>> 3) + (x >>> 3)) +
      3 * ((space_filler_index (x &&& 15) (y &&& 15) <<< 2) &&& 0xFF) + 6
    = swizzled_offset p (2 * x + 1) (2 * y + 1) := by
  unfold swizzled_offset
  rw [shiftRight4_double_succ, shiftRight4_double_succ, land15_double_succ,
    land15_double_succ]
  have h5 := (sfi_double (x &&& 15) (land15_lt x) (y &&& 15) (land15_lt y)).2.2.1
  omega

lemma src_block_addr3 (p x y : Nat) :
    768 * (p * (y >>> 3) + (x >>> 3)) +
      3 * ((space_filler_index (x &&& 15) (y &&& 15) <<< 2) &&& 0xFF) + 9
    = swizzled_offset p (2 * x) (2 * y + 1) := by
  unfold swizzled_offset
  rw [shiftRight4_double, shiftRight4_double_succ, land15_double, land15_double_succ]
  have h5 := (sfi_double (x &&& 15) (land15_lt x) (y &&& 15) (land15_lt y)).2.2.2
  omega

/-! ### The per-pixel behaviour of the mip generator -/

lemma mipmap_pixel (dst src : texture_level) (srcMem dstMem : Nat → Nat)
    (hdw : dst.width = if src.width >>> 1 = 0 then 1 else src.width >>> 1)
    (hdh : dst.height = if src.height >>> 1 = 0 then 1 else src.height >>> 1)
    {x y c : Nat} (hx : x < dst.width) (hy : y < dst.height) (hc : c < 3) :
    texture_24_mipmap dst src srcMem dstMem
        (swizzled_offset (ALIGN dst.width 16 >>> 4) x y + c) =
      if src.width = 1 then
        (srcMem (swizzled_offset (ALIGN src.width 16 >>> 4) 0 (2 * y) + c) +
          srcMem (swizzled_offset (ALIGN src.width 16 >>> 4) 0 (2 * y + 1) + c)) / 2
      else if src.height = 1 then
        (srcMem (swizzled_offset (ALIGN src.width 16 >>> 4) (2 * x) 0 + c) +
          srcMem (swizzled_offset (ALIGN src.width 16 >>> 4) (2 * x + 1) 0 + c)) / 2
      else
        (srcMem (swizzled_offset (ALIGN src.width 16 >>> 4) (2 * x) (2 * y) + c) +
          srcMem (swizzled_offset (ALIGN src.width 16 >>> 4) (2 * x + 1) (2 * y) + c) +
          srcMem (swizzled_offset (ALIGN src.width 16 >>> 4) (2 * x + 1) (2 * y + 1) + c) +
          srcMem (swizzled_offset (ALIGN src.width 16 >>> 4) (2 * x) (2 * y + 1) + c)) / 4 := by
  by_cases hw1 : src.width = 1
  · have hdwe : dst.width = 1 := by simp [hdw, hw1]
    have hx0 : x = 0 := by omega
    subst hx0
    simp only [texture_24_mipmap, if_pos hw1]
    refine runStores_eq_of _ _ _ _ ?_ ?_
    · intro p hp hpA
      simp only [List.mem_flatMap, List.mem_range, List.mem_cons,
        List.not_mem_nil, or_false] at hp
      obtain ⟨y', hy', hcase⟩ := hp
      rcases hcase with rfl | rfl | rfl <;> dsimp only at hpA ⊢
      · have heq : swizzled_offset (ALIGN dst.width 16 >>> 4) 0 y' + 0
            = swizzled_offset (ALIGN dst.width 16 >>> 4) 0 y + c := by
          unfold swizzled_offset at hpA ⊢
          simp only [Nat.zero_shiftRight, Nat.zero_and] at hpA ⊢
          omega
        obtain ⟨-, rfl, rfl⟩ := swizzled_offset_inj (w := dst.width)
          (by omega) (by omega) (by norm_num) hc heq
        have B0 : swizzled_offset (ALIGN src.width 16 >>> 4) 0 (2 * y') + 0
            = 768 * (ALIGN src.width 16 >>> 4 * (y' >>> 3)) +
              3 * ((space_filler_index 0 (y' &&& 15) <<< 2) &&& 0xFF) := by
          rw [← src_block_addr0 (ALIGN src.width 16 >>> 4) 0 y']
          simp only [Nat.zero_shiftRight, Nat.zero_and]
          omega
        have B9 : swizzled_offset (ALIGN src.width 16 >>> 4) 0 (2 * y' + 1) + 0
            = 768 * (ALIGN src.width 16 >>> 4 * (y' >>> 3)) +
              3 * ((space_filler_index 0 (y' &&& 15) <<< 2) &&& 0xFF) + 9 := by
          rw [← src_block_addr3 (ALIGN src.width 16 >>> 4) 0 y']
          simp only [Nat.zero_shiftRight, Nat.zero_and]
          omega
        rw [B0, B9]
      · have heq : swizzled_offset (ALIGN dst.width 16 >>> 4) 0 y' + 1
            = swizzled_offset (ALIGN dst.width 16 >>> 4) 0 y + c := by
          unfold swizzled_offset at hpA ⊢
          simp only [Nat.zero_shiftRight, Nat.zero_and] at hpA ⊢
          omega
        obtain ⟨-, rfl, rfl⟩ := swizzled_offset_inj (w := dst.width)
          (by omega) (by omega) (by norm_num) hc heq
        have B0 : swizzled_offset (ALIGN src.width 16 >>> 4) 0 (2 * y') + 1
            = 768 * (ALIGN src.width 16 >>> 4 * (y' >>> 3)) +
              3 * ((space_filler_index 0 (y' &&& 15) <<< 2) &&& 0xFF) + 1 := by
          rw [← src_block_addr0 (ALIGN src.width 16 >>> 4) 0 y']
          simp only [Nat.zero_shiftRight, Nat.zero_and]
          omega
        have B9 : swizzled_offset (ALIGN src.width 16 >>> 4) 0 (2 * y' + 1) + 1
            = 768 * (ALIGN src.width 16 >>> 4 * (y' >>> 3)) +
              3 * ((space_filler_index 0 (y' &&& 15) <<< 2) &&& 0xFF) + 10 := by
          rw [← src_block_addr3 (ALIGN src.width 16 >>> 4) 0 y']
          simp only [Nat.zero_shiftRight, Nat.zero_and]
          omega
        rw [B0, B9]
      · have heq : swizzled_offset (ALIGN dst.width 16 >>> 4) 0 y' + 2
            = swizzled_offset (ALIGN dst.width 16 >>> 4) 0 y + c := by
          unfold swizzled_offset at hpA ⊢
          simp only [Nat.zero_shiftRight, Nat.zero_and] at hpA ⊢
          omega
        obtain ⟨-, rfl, rfl⟩ := swizzled_offset_inj (w := dst.width)
          (by omega) (by omega) (by norm_num) hc heq
        have B0 : swizzled_offset (ALIGN src.width 16 >>> 4) 0 (2 * y') + 2
            = 768 * (ALIGN src.width 16 >>> 4 * (y' >>> 3)) +
              3 * ((space_filler_index 0 (y' &&& 15) <<< 2) &&& 0xFF) + 2 := by
          rw [← src_block_addr0 (ALIGN src.width 16 >>> 4) 0 y']
          simp only [Nat.zero_shiftRight, Nat.zero_and]
          omega
        have B9 : swizzled_offset (ALIGN src.width 16 >>> 4) 0 (2 * y' + 1) + 2
            = 768 * (ALIGN src.width 16 >>> 4 * (y' >>> 3)) +
              3 * ((space_filler_index 0 (y' &&& 15) <<< 2) &&& 0xFF) + 11 := by
          rw [← src_block_addr3 (ALIGN src.width 16 >>> 4) 0 y']
          simp only [Nat.zero_shiftRight, Nat.zero_and]
          omega
        rw [B0, B9]
    · interval_cases c
      · refine ⟨_, List.mem_flatMap.mpr ⟨y, List.mem_range.mpr hy,
          List.mem_cons_self _ _⟩, ?_⟩
        dsimp only
        unfold swizzled_offset
        simp only [Nat.zero_shiftRight, Nat.zero_and]
        omega
      · refine ⟨_, List.mem_flatMap.mpr ⟨y, List.mem_range.mpr hy,
          List.mem_cons_of_mem _ (List.mem_cons_self _ _)⟩, ?_⟩
        dsimp only
        unfold swizzled_offset
        simp only [Nat.zero_shiftRight, Nat.zero_and]
        omega
      · refine ⟨_, List.mem_flatMap.mpr ⟨y, List.mem_range.mpr hy,
          List.mem_cons_of_mem _ (List.mem_cons_of_mem _ (List.mem_cons_self _ _))⟩, ?_⟩
        dsimp only
        unfold swizzled_offset
        simp only [Nat.zero_shiftRight, Nat.zero_and]
        omega
  by_cases hh1 : src.height = 1
  · have hdhe : dst.height = 1 := by simp [hdh, hh1]
    have hy0 : y = 0 := by omega
    subst hy0
    simp only [texture_24_mipmap, if_neg hw1, if_pos hh1]
    refine runStores_eq_of _ _ _ _ ?_ ?_
    · intro p hp hpA
      simp only [List.mem_flatMap, List.mem_range, List.mem_cons,
        List.not_mem_nil, or_false] at hp
      obtain ⟨x', hx', hcase⟩ := hp
      rcases hcase with rfl | rfl | rfl <;> dsimp only at hpA ⊢
      · have heq : swizzled_offset (ALIGN dst.width 16 >>> 4) x' 0 + 0
            = swizzled_offset (ALIGN dst.width 16 >>> 4) x 0 + c := by
          unfold swizzled_offset at hpA ⊢
          simp only [Nat.zero_shiftRight, Nat.zero_and, Nat.mul_zero] at hpA ⊢
          omega
        obtain ⟨rfl, -, rfl⟩ := swizzled_offset_inj (w := dst.width)
          hx' hx (by norm_num) hc heq
        have E0 := src_block_addr0 (ALIGN src.width 16 >>> 4) x' 0
        have E1 := src_block_addr1 (ALIGN src.width 16 >>> 4) x' 0
        simp only [Nat.mul_zero] at E0 E1
        have B0 : swizzled_offset (ALIGN src.width 16 >>> 4) (2 * x') 0 + 0
            = 768 * (x' >>> 3) +
              3 * ((space_filler_index (x' &&& 15) 0 <<< 2) &&& 0xFF) := by
          rw [← E0]
          simp only [Nat.zero_shiftRight, Nat.zero_and, Nat.mul_zero]
          omega
        have B3 : swizzled_offset (ALIGN src.width 16 >>> 4) (2 * x' + 1) 0 + 0
            = 768 * (x' >>> 3) +
              3 * ((space_filler_index (x' &&& 15) 0 <<< 2) &&& 0xFF) + 3 := by
          rw [← E1]
          simp only [Nat.zero_shiftRight, Nat.zero_and, Nat.mul_zero]
          omega
        rw [B0, B3]
      · have heq : swizzled_offset (ALIGN dst.width 16 >>> 4) x' 0 + 1
            = swizzled_offset (ALIGN dst.width 16 >>> 4) x 0 + c := by
          unfold swizzled_offset at hpA ⊢
          simp only [Nat.zero_shiftRight, Nat.zero_and, Nat.mul_zero] at hpA ⊢
          omega
        obtain ⟨rfl, -, rfl⟩ := swizzled_offset_inj (w := dst.width)
          hx' hx (by norm_num) hc heq
        have E0 := src_block_addr0 (ALIGN src.width 16 >>> 4) x' 0
        have E1 := src_block_addr1 (ALIGN src.width 16 >>> 4) x' 0
        simp only [Nat.mul_zero] at E0 E1
        have B0 : swizzled_offset (ALIGN src.width 16 >>> 4) (2 * x') 0 + 1
            = 768 * (x' >>> 3) +
              3 * ((space_filler_index (x' &&& 15) 0 <<< 2) &&& 0xFF) + 1 := by
          rw [← E0]
          simp only [Nat.zero_shiftRight, Nat.zero_and, Nat.mul_zero]
          omega
        have B3 : swizzled_offset (ALIGN src.width 16 >>> 4) (2 * x' + 1) 0 + 1
            = 768 * (x' >>> 3) +
              3 * ((space_filler_index (x' &&& 15) 0 <<< 2) &&& 0xFF) + 4 := by
          rw [← E1]
          simp only [Nat.zero_shiftRight, Nat.zero_and, Nat.mul_zero]
          omega
        rw [B0, B3]
      · have heq : swizzled_offset (ALIGN dst.width 16 >>> 4) x' 0 + 2
            = swizzled_offset (ALIGN dst.width 16 >>> 4) x 0 + c := by
          unfold swizzled_offset at hpA ⊢
          simp only [Nat.zero_shiftRight, Nat.zero_and, Nat.mul_zero] at hpA ⊢
          omega
        obtain ⟨rfl, -, rfl⟩ := swizzled_offset_inj (w := dst.width)
          hx' hx (by norm_num) hc heq
        have E0 := src_block_addr0 (ALIGN src.width 16 >>> 4) x' 0
        have E1 := src_block_addr1 (ALIGN src.width 16 >>> 4) x' 0
        simp only [Nat.mul_zero] at E0 E1
        have B0 : swizzled_offset (ALIGN src.width 16 >>> 4) (2 * x') 0 + 2
            = 768 * (x' >>> 3) +
              3 * ((space_filler_index (x' &&& 15) 0 <<< 2) &&& 0xFF) + 2 := by
          rw [← E0]
          simp only [Nat.zero_shiftRight, Nat.zero_and, Nat.mul_zero]
          omega
        have B3 : swizzled_offset (ALIGN src.width 16 >>> 4) (2 * x' + 1) 0 + 2
            = 768 * (x' >>> 3) +
              3 * ((space_filler_index (x' &&& 15) 0 <<< 2) &&& 0xFF) + 5 := by
          rw [← E1]
          simp only [Nat.zero_shiftRight, Nat.zero_and, Nat.mul_zero]
          omega
        rw [B0, B3]
    · interval_cases c
      · refine ⟨_, List.mem_flatMap.mpr ⟨x, List.mem_range.mpr hx,
          List.mem_cons_self _ _⟩, ?_⟩
        dsimp only
        unfold swizzled_offset
        simp only [Nat.zero_shiftRight, Nat.zero_and, Nat.mul_zero]
        omega
      · refine ⟨_, List.mem_flatMap.mpr ⟨x, List.mem_range.mpr hx,
          List.mem_cons_of_mem _ (List.mem_cons_self _ _)⟩, ?_⟩
        dsimp only
        unfold swizzled_offset
        simp only [Nat.zero_shiftRight, Nat.zero_and, Nat.mul_zero]
        omega
      · refine ⟨_, List.mem_flatMap.mpr ⟨x, List.mem_range.mpr hx,
          List.mem_cons_of_mem _ (List.mem_cons_of_mem _ (List.mem_cons_self _ _))⟩, ?_⟩
        dsimp only
        unfold swizzled_offset
        simp only [Nat.zero_shiftRight, Nat.zero_and, Nat.mul_zero]
        omega
  · simp only [texture_24_mipmap, if_neg hw1, if_neg hh1]
    refine runStores_eq_of _ _ _ _ ?_ ?_
    · intro p hp hpA
      simp only [List.mem_flatMap, List.mem_range, List.mem_cons,
        List.not_mem_nil, or_false] at hp
      obtain ⟨y', hy', x', hx', hcase⟩ := hp
      rcases hcase with rfl | rfl | rfl <;> dsimp only at hpA ⊢
      · have heq : swizzled_offset (ALIGN dst.width 16 >>> 4) x' y' + 0
            = swizzled_offset (ALIGN dst.width 16 >>> 4) x y + c := by
          unfold swizzled_offset at hpA ⊢
          omega
        obtain ⟨rfl, rfl, rfl⟩ := swizzled_offset_inj (w := dst.width)
          hx' hx (by norm_num) hc heq
        have B0 : swizzled_offset (ALIGN src.width 16 >>> 4) (2 * x') (2 * y') + 0
            = 768 * (ALIGN src.width 16 >>> 4 * (y' >>> 3) + x' >>> 3) +
              3 * ((space_filler_index (x' &&& 15) (y' &&& 15) <<< 2) &&& 0xFF) := by
          rw [← src_block_addr0 (ALIGN src.width 16 >>> 4) x' y']
          omega
        have B3 : swizzled_offset (ALIGN src.width 16 >>> 4) (2 * x' + 1) (2 * y') + 0
            = 768 * (ALIGN src.width 16 >>> 4 * (y' >>> 3) + x' >>> 3) +
              3 * ((space_filler_index (x' &&& 15) (y' &&& 15) <<< 2) &&& 0xFF) + 3 := by
          rw [← src_block_addr1 (ALIGN src.width 16 >>> 4) x' y']
        have B6 : swizzled_offset (ALIGN src.width 16 >>> 4) (2 * x' + 1) (2 * y' + 1) + 0
            = 768 * (ALIGN src.width 16 >>> 4 * (y' >>> 3) + x' >>> 3) +
              3 * ((space_filler_index (x' &&& 15) (y' &&& 15) <<< 2) &&& 0xFF) + 6 := by
          rw [← src_block_addr2 (ALIGN src.width 16 >>> 4) x' y']
        have B9 : swizzled_offset (ALIGN src.width 16 >>> 4) (2 * x') (2 * y' + 1) + 0
            = 768 * (ALIGN src.width 16 >>> 4 * (y' >>> 3) + x' >>> 3) +
              3 * ((space_filler_index (x' &&& 15) (y' &&& 15) <<< 2) &&& 0xFF) + 9 := by
          rw [← src_block_addr3 (ALIGN src.width 16 >>> 4) x' y']
        rw [B0, B3, B6, B9]
      · have heq : swizzled_offset (ALIGN dst.width 16 >>> 4) x' y' + 1
            = swizzled_offset (ALIGN dst.width 16 >>> 4) x y + c := by
          unfold swizzled_offset at hpA ⊢
          omega
        obtain ⟨rfl, rfl, rfl⟩ := swizzled_offset_inj (w := dst.width)
          hx' hx (by norm_num) hc heq
        have B0 : swizzled_offset (ALIGN src.width 16 >>> 4) (2 * x') (2 * y') + 1
            = 768 * (ALIGN src.width 16 >>> 4 * (y' >>> 3) + x' >>> 3) +
              3 * ((space_filler_index (x' &&& 15) (y' &&& 15) <<< 2) &&& 0xFF) + 1 := by
          rw [← src_block_addr0 (ALIGN src.width 16 >>> 4) x' y']
        have B3 : swizzled_offset (ALIGN src.width 16 >>> 4) (2 * x' + 1) (2 * y') + 1
            = 768 * (ALIGN src.width 16 >>> 4 * (y' >>> 3) + x' >>> 3) +
              3 * ((space_filler_index (x' &&& 15) (y' &&& 15) <<< 2) &&& 0xFF) + 4 := by
          rw [← src_block_addr1 (ALIGN src.width 16 >>> 4) x' y']
        have B6 : swizzled_offset (ALIGN src.width 16 >>> 4) (2 * x' + 1) (2 * y' + 1) + 1
            = 768 * (ALIGN src.width 16 >>> 4 * (y' >>> 3) + x' >>> 3) +
              3 * ((space_filler_index (x' &&& 15) (y' &&& 15) <<< 2) &&& 0xFF) + 7 := by
          rw [← src_block_addr2 (ALIGN src.width 16 >>> 4) x' y']
        have B9 : swizzled_offset (ALIGN src.width 16 >>> 4) (2 * x') (2 * y' + 1) + 1
            = 768 * (ALIGN src.width 16 >>> 4 * (y' >>> 3) + x' >>> 3) +
              3 * ((space_filler_index (x' &&& 15) (y' &&& 15) <<< 2) &&& 0xFF) + 10 := by
          rw [← src_block_addr3 (ALIGN src.width 16 >>> 4) x' y']
        rw [B0, B3, B6, B9]
      · have heq : swizzled_offset (ALIGN dst.width 16 >>> 4) x' y' + 2
            = swizzled_offset (ALIGN dst.width 16 >>> 4) x y + c := by
          unfold swizzled_offset at hpA ⊢
          omega
        obtain ⟨rfl, rfl, rfl⟩ := swizzled_offset_inj (w := dst.width)
          hx' hx (by norm_num) hc heq
        have B0 : swizzled_offset (ALIGN src.width 16 >>> 4) (2 * x') (2 * y') + 2
            = 768 * (ALIGN src.width 16 >>> 4 * (y' >>> 3) + x' >>> 3) +
              3 * ((space_filler_index (x' &&& 15) (y' &&& 15) <<< 2) &&& 0xFF) + 2 := by
          rw [← src_block_addr0 (ALIGN src.width 16 >>> 4) x' y']
        have B3 : swizzled_offset (ALIGN src.width 16 >>> 4) (2 * x' + 1) (2 * y') + 2
            = 768 * (ALIGN src.width 16 >>> 4 * (y' >>> 3) + x' >>> 3) +
              3 * ((space_filler_index (x' &&& 15) (y' &&& 15) <<< 2) &&& 0xFF) + 5 := by
          rw [← src_block_addr1 (ALIGN src.width 16 >>> 4) x' y']
        have B6 : swizzled_offset (ALIGN src.width 16 >>> 4) (2 * x' + 1) (2 * y' + 1) + 2
            = 768 * (ALIGN src.width 16 >>> 4 * (y' >>> 3) + x' >>> 3) +
              3 * ((space_filler_index (x' &&& 15) (y' &&& 15) <<< 2) &&& 0xFF) + 8 := by
          rw [← src_block_addr2 (ALIGN src.width 16 >>> 4) x' y']
        have B9 : swizzled_offset (ALIGN src.width 16 >>> 4) (2 * x') (2 * y' + 1) + 2
            = 768 * (ALIGN src.width 16 >>> 4 * (y' >>> 3) + x' >>> 3) +
              3 * ((space_filler_index (x' &&& 15) (y' &&& 15) <<< 2) &&& 0xFF) + 11 := by
          rw [← src_block_addr3 (ALIGN src.width 16 >>> 4) x' y']
        rw [B0, B3, B6, B9]
    · interval_cases c
      · refine ⟨_, List.mem_flatMap.mpr ⟨y, List.mem_range.mpr hy,
          List.mem_flatMap.mpr ⟨x, List.mem_range.mpr hx,
            List.mem_cons_self _ _⟩⟩, ?_⟩
        dsimp only
        unfold swizzled_offset
        omega
      · refine ⟨_, List.mem_flatMap.mpr ⟨y, List.mem_range.mpr hy,
          List.mem_flatMap.mpr ⟨x, List.mem_range.mpr hx,
            List.mem_cons_of_mem _ (List.mem_cons_self _ _)⟩⟩, ?_⟩
        dsimp only
        unfold swizzled_offset
        omega
      · refine ⟨_, List.mem_flatMap.mpr ⟨y, List.mem_range.mpr hy,
          List.mem_flatMap.mpr ⟨x, List.mem_range.mpr hx,
            List.mem_cons_of_mem _ (List.mem_cons_of_mem _ (List.mem_cons_self _ _))⟩⟩, ?_⟩
        dsimp only
        unfold swizzled_offset
        omega

/-! ### The per-pixel behaviour of the swizzle encoder -/

lemma swizzle_pixel (w h : Nat) (pixels dest0 : Nat → Nat) {x y c : Nat}
    (hx : x < w) (hy : y < h) (hc : c < 3) :
    texture_24_swizzle w h pixels dest0
        (swizzled_offset (ALIGN w 16 >>> 4) x y + c)
      = pixels (y * ALIGN (w * 3) 4 + 3 * x + c) := by
  simp only [texture_24_swizzle]
  refine runStores_eq_of _ _ _ _ ?_ ?_
  · intro p hp hpA
    simp only [List.mem_flatMap, List.mem_range, List.mem_cons,
      List.not_mem_nil, or_false] at hp
    obtain ⟨y', hy', x', hx', hcase⟩ := hp
    rcases hcase with rfl | rfl | rfl <;> dsimp only at hpA ⊢
    · have heq : swizzled_offset (ALIGN w 16 >>> 4) x' y' + 0
          = swizzled_offset (ALIGN w 16 >>> 4) x y + c := by
        unfold swizzled_offset at hpA ⊢
        ring_nf at hpA ⊢
        omega
      obtain ⟨rfl, rfl, rfl⟩ := swizzled_offset_inj (w := w)
        hx' hx (by norm_num) hc heq
      congr 1
    · have heq : swizzled_offset (ALIGN w 16 >>> 4) x' y' + 1
          = swizzled_offset (ALIGN w 16 >>> 4) x y + c := by
        unfold swizzled_offset at hpA ⊢
        ring_nf at hpA ⊢
        omega
      obtain ⟨rfl, rfl, rfl⟩ := swizzled_offset_inj (w := w)
        hx' hx (by norm_num) hc heq
      congr 1
    · have heq : swizzled_offset (ALIGN w 16 >>> 4) x' y' + 2
          = swizzled_offset (ALIGN w 16 >>> 4) x y + c := by
        unfold swizzled_offset at hpA ⊢
        ring_nf at hpA ⊢
        omega
      obtain ⟨rfl, rfl, rfl⟩ := swizzled_offset_inj (w := w)
        hx' hx (by norm_num) hc heq
      congr 1
  · interval_cases c
    · refine ⟨_, List.mem_flatMap.mpr ⟨y, List.mem_range.mpr hy,
        List.mem_flatMap.mpr ⟨x, List.mem_range.mpr hx,
          List.mem_cons_self _ _⟩⟩, ?_⟩
      dsimp only
      unfold swizzled_offset
      ring_nf
    · refine ⟨_, List.mem_flatMap.mpr ⟨y, List.mem_range.mpr hy,
        List.mem_flatMap.mpr ⟨x, List.mem_range.mpr hx,
          List.mem_cons_of_mem _ (List.mem_cons_self _ _)⟩⟩, ?_⟩
      dsimp only
      unfold swizzled_offset
      ring_nf
    · refine ⟨_, List.mem_flatMap.mpr ⟨y, List.mem_range.mpr hy,
        List.mem_flatMap.mpr ⟨x, List.mem_range.mpr hx,
          List.mem_cons_of_mem _ (List.mem_cons_of_mem _ (List.mem_cons_self _ _))⟩⟩, ?_⟩
      dsimp only
      unfold swizzled_offset
      ring_nf

/-! ### Level dimensions and the level-count loop -/

lemma texture_24_level_width_eq (w h i : Nat) :
    (texture_24_level w h i).width = max 1 (w >>> i) := by
  show (if w >>> i = 0 then 1 else w >>> i) = max 1 (w >>> i)
  generalize w >>> i = a
  split <;> omega

lemma texture_24_level_height_eq (w h i : Nat) :
    (texture_24_level w h i).height = max 1 (h >>> i) := by
  show (if h >>> i = 0 then 1 else h >>> i) = max 1 (h >>> i)
  generalize h >>> i = a
  split <;> omega

lemma texture_24_level_width_pos (w h i : Nat) :
    1 ≤ (texture_24_level w h i).width := by
  show 1 ≤ (if w >>> i = 0 then 1 else w >>> i)
  generalize w >>> i = a
  split <;> omega

lemma texture_24_level_height_pos (w h i : Nat) :
    1 ≤ (texture_24_level w h i).height := by
  show 1 ≤ (if h >>> i = 0 then 1 else h >>> i)
  generalize h >>> i = a
  split <;> omega

lemma texture_24_level_width_step (w h k : Nat) :
    (texture_24_level w h (k + 1)).width
      = if (texture_24_level w h k).width >>> 1 = 0 then 1
        else (texture_24_level w h k).width >>> 1 := by
  simp only [texture_24_level]
  rw [Nat.shiftRight_add w k 1]
  by_cases h0 : w >>> k = 0
  · simp [h0]
  · simp [h0]

lemma texture_24_level_height_step (w h k : Nat) :
    (texture_24_level w h (k + 1)).height
      = if (texture_24_level w h k).height >>> 1 = 0 then 1
        else (texture_24_level w h k).height >>> 1 := by
  simp only [texture_24_level]
  rw [Nat.shiftRight_add h k 1]
  by_cases h0 : h >>> k = 0
  · simp [h0]
  · simp [h0]

lemma levels_loop_aux_le_iff : ∀ (fuel m i : Nat), m ≤ fuel →
    (levels_loop_aux fuel m ≤ i ↔ m < 2 ^ i) := by
  intro fuel
  induction fuel with
  | zero =>
    intro m i hm
    have hm0 : m = 0 := by omega
    subst hm0
    simp only [levels_loop_aux]
    constructor
    · intro _
      exact Nat.pos_pow_of_pos i (by norm_num)
    · intro _
      exact Nat.zero_le i
  | succ fuel ih =>
    intro m i hm
    by_cases h0 : m = 0
    · subst h0
      simp only [levels_loop_aux, if_pos rfl]
      constructor
      · intro _
        exact Nat.pos_pow_of_pos i (by norm_num)
      · intro _
        exact Nat.zero_le i
    · simp only [levels_loop_aux, if_neg h0]
      cases i with
      | zero =>
        constructor
        · intro hcon
          omega
        · intro hcon
          norm_num at hcon
          omega
      | succ j =>
        have hm2 : m >>> 1 ≤ fuel := by
          simp only [Nat.shiftRight_eq_div_pow, pow_one]
          omega
        have hiff := ih (m >>> 1) j hm2
        simp only [Nat.shiftRight_eq_div_pow, pow_one] at hiff ⊢
        have hp : (2 : Nat) ^ (j + 1) = 2 * 2 ^ j := by ring
        omega

lemma levels_loop_le_iff (m i : Nat) : levels_loop m ≤ i ↔ m < 2 ^ i :=
  levels_loop_aux_le_iff m m i le_rfl

lemma levels_loop_eq_log (m : Nat) (hm : 1 ≤ m) :
    levels_loop m = Nat.log 2 m + 1 := by
  have h1 : m < 2 ^ levels_loop m := (levels_loop_le_iff m _).mp le_rfl
  have h2 : 1 ≤ levels_loop m := by
    by_contra hcon
    have := (levels_loop_le_iff m 0).mp (by omega)
    norm_num at this
    omega
  have h3 : ¬(m < 2 ^ (levels_loop m - 1)) := by
    intro hlt
    have := (levels_loop_le_iff m (levels_loop m - 1)).mpr hlt
    omega
  have hstep : levels_loop m - 1 + 1 = levels_loop m := by omega
  have hlog := Nat.log_eq_of_pow_le_of_lt_pow (b := 2) (m := levels_loop m - 1)
    (n := m) (by omega) (by rw [hstep]; exact h1)
  omega

lemma level_dims_not_both_one {w h k : Nat}
    (hk : k + 1 < levels_loop (max w h)) :
    ¬((texture_24_level w h k).width = 1 ∧ (texture_24_level w h k).height = 1) := by
  rintro ⟨hw1, hh1⟩
  have hwle : w >>> k ≤ 1 := by
    simp only [texture_24_level] at hw1
    split at hw1 <;> omega
  have hhle : h >>> k ≤ 1 := by
    simp only [texture_24_level] at hh1
    split at hh1 <;> omega
  have hmle : max w h >>> k ≤ 1 := by
    rcases max_cases w h with ⟨he, -⟩ | ⟨he, -⟩ <;> rw [he]
    · exact hwle
    · exact hhle
  have hml : max w h < 2 ^ (k + 1) := by
    simp only [Nat.shiftRight_eq_div_pow] at hmle
    have hpos : 0 < 2 ^ k := Nat.pos_pow_of_pos k (by norm_num)
    have hp : (2 : Nat) ^ (k + 1) = 2 * 2 ^ k := by ring
    have := Nat.lt_succ_of_le hmle
    have h2 := (Nat.div_lt_iff_lt_mul hpos).mp this
    omega
  have := (levels_loop_le_iff (max w h) (k + 1)).mpr hml
  omega

/-! ### Uniform source images stay uniform down the mip chain -/

lemma contents_uniform (w h : Nat) (color pixels junk : Nat → Nat)
    (hwpos : 1 ≤ w) (hhpos : 1 ≤ h)
    (huni : ∀ x y c, x < w → y < h → c < 3 →
      pixels (y * ALIGN (w * 3) 4 + 3 * x + c) = color c) :
    ∀ k, k < levels_loop (max w h) → ∀ x y c,
      x < (texture_24_level w h k).width →
      y < (texture_24_level w h k).height → c < 3 →
      texture_24_contents w h pixels junk k
        (swizzled_offset (ALIGN (texture_24_level w h k).width 16 >>> 4) x y + c)
        = color c := by
  intro k
  induction k with
  | zero =>
    intro hk x y c hx hy hc
    have hw0 : (texture_24_level w h 0).width = w := by
      rw [texture_24_level_width_eq]
      simp only [Nat.shiftRight_zero]
      omega
    have hh0 : (texture_24_level w h 0).height = h := by
      rw [texture_24_level_height_eq]
      simp only [Nat.shiftRight_zero]
      omega
    rw [hw0] at hx ⊢
    rw [hh0] at hy
    simp only [texture_24_contents]
    rw [swizzle_pixel w h pixels junk hx hy hc]
    exact huni x y c hx hy hc
  | succ k ih =>
    intro hk x y c hx hy hc
    have hkk : k < levels_loop (max w h) := by omega
    have hdw := texture_24_level_width_step w h k
    have hdh := texture_24_level_height_step w h k
    have hnb := level_dims_not_both_one (w := w) (h := h) (k := k) hk
    have hwp := texture_24_level_width_pos w h k
    have hhp := texture_24_level_height_pos w h k
    simp only [texture_24_contents]
    rw [mipmap_pixel _ _ _ _ hdw hdh hx hy hc]
    by_cases hsw : (texture_24_level w h k).width = 1
    · rw [if_pos hsw]
      have hshne : (texture_24_level w h k).height ≠ 1 := fun hh1 => hnb ⟨hsw, hh1⟩
      have hsr : (texture_24_level w h k).height >>> 1
          = (texture_24_level w h k).height / 2 := by
        simp [Nat.shiftRight_eq_div_pow]
      have hyb : 2 * y + 1 < (texture_24_level w h k).height := by
        rw [hdh] at hy
        rw [hsr] at hy
        split at hy <;> omega
      have r0 := ih hkk 0 (2 * y) c (by omega) (by omega) hc
      have r1 := ih hkk 0 (2 * y + 1) c (by omega) (by omega) hc
      rw [r0, r1]
      omega
    · by_cases hsh : (texture_24_level w h k).height = 1
      · rw [if_neg hsw, if_pos hsh]
        have hwr : (texture_24_level w h k).width >>> 1
            = (texture_24_level w h k).width / 2 := by
          simp [Nat.shiftRight_eq_div_pow]
        have hxb : 2 * x + 1 < (texture_24_level w h k).width := by
          rw [hdw] at hx
          rw [hwr] at hx
          split at hx <;> omega
        have r0 := ih hkk (2 * x) 0 c (by omega) (by omega) hc
        have r1 := ih hkk (2 * x + 1) 0 c (by omega) (by omega) hc
        rw [r0, r1]
        omega
      · rw [if_neg hsw, if_neg hsh]
        have hwr : (texture_24_level w h k).width >>> 1
            = (texture_24_level w h k).width / 2 := by
          simp [Nat.shiftRight_eq_div_pow]
        have hsr : (texture_24_level w h k).height >>> 1
            = (texture_24_level w h k).height / 2 := by
          simp [Nat.shiftRight_eq_div_pow]
        have hxb : 2 * x + 1 < (texture_24_level w h k).width := by
          rw [hdw] at hx
          rw [hwr] at hx
          split at hx <;> omega
        have hyb : 2 * y + 1 < (texture_24_level w h k).height := by
          rw [hdh] at hy
          rw [hsr] at hy
          split at hy <;> omega
        have r00 := ih hkk (2 * x) (2 * y) c (by omega) (by omega) hc
        have r10 := ih hkk (2 * x + 1) (2 * y) c (by omega) (by omega) hc
        have r11 := ih hkk (2 * x + 1) (2 * y + 1) c (by omega) (by omega) hc
        have r01 := ih hkk (2 * x) (2 * y + 1) c (by omega) (by omega) hc
        rw [r00, r10, r11, r01]
        omega

/-! ### Arena commit lemmas -/

lemma texture_24_commit_snd (addr physBase : Nat) :
    ∀ (ls : List texture_level) (used : Nat),
      (texture_24_commit addr physBase used ls).2
        = used + (ls.map texture_level.size).sum := by
  intro ls
  induction ls with
  | nil => intro used; simp [texture_24_commit]
  | cons l t ih =>
    intro used
    simp only [texture_24_commit, List.map_cons, List.sum_cons]
    rw [ih (used + l.size)]
    omega

lemma texture_24_commit_length (addr physBase : Nat) :
    ∀ (ls : List texture_level) (used : Nat),
      (texture_24_commit addr physBase used ls).1.length = ls.length := by
  intro ls
  induction ls with
  | nil => intro used; rfl
  | cons l t ih =>
    intro used
    simp only [texture_24_commit, List.length_cons]
    rw [ih (used + l.size)]

lemma texture_24_commit_getD_phys (addr physBase : Nat) :
    ∀ (ls : List texture_level) (used i : Nat), i < ls.length →
      (((texture_24_commit addr physBase used ls).1.getD i default).mem_physical)
        = physBase + used + ((ls.take i).map texture_level.size).sum := by
  intro ls
  induction ls with
  | nil => intro used i hi; simp at hi
  | cons l t ih =>
    intro used i hi
    cases i with
    | zero => simp [texture_24_commit]
    | succ i =>
      simp only [texture_24_commit, List.getD_cons_succ, List.take_succ_cons,
        List.map_cons, List.sum_cons]
      rw [ih (used + l.size) i (by simpa using hi)]
      omega

lemma texture_24_commit_getD_dest (addr physBase : Nat) :
    ∀ (ls : List texture_level) (used i : Nat), i < ls.length →
      (((texture_24_commit addr physBase used ls).1.getD i default).dest)
        = addr + used + ((ls.take i).map texture_level.size).sum := by
  intro ls
  induction ls with
  | nil => intro used i hi; simp at hi
  | cons l t ih =>
    intro used i hi
    cases i with
    | zero => simp [texture_24_commit]
    | succ i =>
      simp only [texture_24_commit, List.getD_cons_succ, List.take_succ_cons,
        List.map_cons, List.sum_cons]
      rw [ih (used + l.size) i (by simpa using hi)]
      omega

lemma texture_24_commit_getD_size (addr physBase : Nat) :
    ∀ (ls : List texture_level) (used i : Nat), i < ls.length →
      (((texture_24_commit addr physBase used ls).1.getD i default).size)
        = (ls.getD i default).size := by
  intro ls
  induction ls with
  | nil => intro used i hi; simp at hi
  | cons l t ih =>
    intro used i hi
    cases i with
    | zero => simp [texture_24_commit]
    | succ i =>
      simp only [texture_24_commit, List.getD_cons_succ]
      exact ih (used + l.size) i (by simpa using hi)

lemma plan_getD (w h levels i : Nat) (hi : i < levels) :
    ((List.range levels).map (texture_24_level w h)).getD i default
      = texture_24_level w h i := by
  rw [List.getD_eq_getElem?_getD, List.getElem?_map, List.getElem?_range hi]
  rfl

lemma plan_take_sum (w h levels i : Nat) (hi : i ≤ levels) :
    ((((List.range levels).map (texture_24_level w h)).take i).map
      texture_level.size).sum = texture_24_total_size w h i := by
  rw [← List.map_take, List.take_range, Nat.min_eq_left hi]
  simp only [texture_24_total_size, List.map_map]
  rfl

lemma plan_full_sum (w h levels : Nat) :
    (((List.range levels).map (texture_24_level w h)).map
      texture_level.size).sum = texture_24_total_size w h levels := by
  simp only [texture_24_total_size, List.map_map]
  rfl

lemma texture_24_total_size_succ (w h i : Nat) :
    texture_24_total_size w h (i + 1)
      = texture_24_total_size w h i + (texture_24_level w h i).size := by
  simp [texture_24_total_size, List.range_succ]

lemma texture_24_total_size_mono (w h : Nat) :
    ∀ {i j : Nat}, i ≤ j → texture_24_total_size w h i ≤ texture_24_total_size w h j := by
  intro i j hij
  induction j with
  | zero => have : i = 0 := by omega
            subst this
            exact le_rfl
  | succ j ihj =>
    rcases Nat.lt_or_ge i (j + 1) with hlt | hge
    · have := ihj (by omega)
      rw [texture_24_total_size_succ]
      omega
    · have : i = j + 1 := by omega
      subst this
      exact le_rfl

/-! ### Descriptor bit-field lemmas -/

lemma land_eq_zero_of_bits (a c lo hi : Nat)
    (ha : ∀ b, a.testBit b = true → lo ≤ b ∧ b < hi)
    (hc : ∀ b < hi, lo ≤ b → c.testBit b = false) : a &&& c = 0 := by
  apply Nat.eq_of_testBit_eq
  intro b
  simp only [Nat.testBit_land, Nat.zero_testBit]
  cases hb : a.testBit b
  · simp
  · have hr := ha b hb
    rw [hc b hr.2 hr.1]
    simp

lemma masked_store (old v nm : Nat) (hv : v &&& nm = 0) :
    ((old &&& nm) ||| v) &&& nm = old &&& nm := by
  apply Nat.eq_of_testBit_eq
  intro b
  have hvb := congrArg (fun t => Nat.testBit t b) hv
  simp only [Nat.testBit_land, Nat.testBit_lor, Nat.zero_testBit] at hvb ⊢
  cases h1 : old.testBit b <;> cases h2 : v.testBit b <;> cases h3 : nm.testBit b <;>
    simp_all

lemma lowbit_false (phys : Nat) (h10 : phys % 1024 = 0) :
    ∀ j, j < 10 → phys / 2 ^ j % 2 = 1 → False := by
  intro j hj hdiv
  interval_cases j <;> omega

lemma phys_shr_bits {phys s b : Nat} (h10 : phys % 1024 = 0) (h32 : phys < 2 ^ 32)
    (hbit : (phys >>> s).testBit b = true) : 10 ≤ s + b ∧ s + b < 32 := by
  rw [Nat.testBit_shiftRight] at hbit
  constructor
  · by_contra hlt
    push_neg at hlt
    rw [Nat.testBit_to_div_mod] at hbit
    simp only [decide_eq_true_eq] at hbit
    exact lowbit_false phys h10 (s + b) hlt hbit
  · by_contra hge
    push_neg at hge
    have hlt : phys < 2 ^ (s + b) :=
      lt_of_lt_of_le h32 (Nat.pow_le_pow_right (by norm_num) hge)
    rw [Nat.testBit_eq_false_of_lt hlt] at hbit
    simp at hbit

lemma phys_shl_bits {phys s b : Nat} (h10 : phys % 1024 = 0) (_h32 : phys < 2 ^ 32)
    (hbit : ((phys <<< s) % 2 ^ 32).testBit b = true) : s + 10 ≤ b ∧ b < 32 := by
  rw [Nat.testBit_mod_two_pow] at hbit
  simp only [Bool.and_eq_true, decide_eq_true_eq] at hbit
  obtain ⟨hb32, hbit⟩ := hbit
  rw [Nat.testBit_shiftLeft] at hbit
  simp only [Bool.and_eq_true, decide_eq_true_eq] at hbit
  obtain ⟨hsb, hbit⟩ := hbit
  refine ⟨?_, hb32⟩
  by_contra hlt
  push_neg at hlt
  rw [Nat.testBit_to_div_mod] at hbit
  simp only [decide_eq_true_eq] at hbit
  exact lowbit_false phys h10 (b - s) (by omega) hbit

lemma phys_mod_bits {phys b : Nat} (h10 : phys % 1024 = 0) (h32 : phys < 2 ^ 32)
    (hbit : (phys % 2 ^ 32).testBit b = true) : 10 ≤ b ∧ b < 32 := by
  rw [Nat.mod_eq_of_lt h32] at hbit
  constructor
  · by_contra hlt
    push_neg at hlt
    rw [Nat.testBit_to_div_mod] at hbit
    simp only [decide_eq_true_eq] at hbit
    exact lowbit_false phys h10 b hlt hbit
  · by_contra hge
    push_neg at hge
    have hlt : phys < 2 ^ b :=
      lt_of_lt_of_le h32 (Nat.pow_le_pow_right (by norm_num) hge)
    rw [Nat.testBit_eq_false_of_lt hlt] at hbit
    simp at hbit

lemma attach_frame_0 (phys : Nat) (h10 : phys % 1024 = 0) (h32 : phys < 2 ^ 32)
    (d : Fin 16 → Nat) (w : Fin 16) :
    texture_descriptor_level_attach 0 phys d w
        &&& (0xFFFFFFFF ^^^ descriptor_field_mask 0 w)
      = d w &&& (0xFFFFFFFF ^^^ descriptor_field_mask 0 w) := by
  fin_cases w <;>
    simp only [texture_descriptor_level_attach, descriptor_field_mask,
      Function.update] <;>
    first
      | rfl
      | exact masked_store _ _ _ (land_eq_zero_of_bits _ _ 34 32
          (fun b hb => by
            obtain ⟨h1, h2⟩ := phys_shl_bits h10 h32 hb
            omega)
          (by decide))
      | exact masked_store _ _ _ (land_eq_zero_of_bits _ _ 2 24
          (fun b hb => by
            obtain ⟨h1, h2⟩ := phys_shr_bits h10 h32 hb
            omega)
          (by decide))

lemma attach_frame_1 (phys : Nat) (h10 : phys % 1024 = 0) (h32 : phys < 2 ^ 32)
    (d : Fin 16 → Nat) (w : Fin 16) :
    texture_descriptor_level_attach 1 phys d w
        &&& (0xFFFFFFFF ^^^ descriptor_field_mask 1 w)
      = d w &&& (0xFFFFFFFF ^^^ descriptor_field_mask 1 w) := by
  fin_cases w <;>
    simp only [texture_descriptor_level_attach, descriptor_field_mask,
      Function.update] <;>
    first
      | rfl
      | exact masked_store _ _ _ (land_eq_zero_of_bits _ _ 28 32
          (fun b hb => by
            obtain ⟨h1, h2⟩ := phys_shl_bits h10 h32 hb
            omega)
          (by decide))
      | exact masked_store _ _ _ (land_eq_zero_of_bits _ _ 0 18
          (fun b hb => by
            obtain ⟨h1, h2⟩ := phys_shr_bits h10 h32 hb
            omega)
          (by decide))

lemma attach_frame_2 (phys : Nat) (h10 : phys % 1024 = 0) (h32 : phys < 2 ^ 32)
    (d : Fin 16 → Nat) (w : Fin 16) :
    texture_descriptor_level_attach 2 phys d w
        &&& (0xFFFFFFFF ^^^ descriptor_field_mask 2 w)
      = d w &&& (0xFFFFFFFF ^^^ descriptor_field_mask 2 w) := by
  fin_cases w <;>
    simp only [texture_descriptor_level_attach, descriptor_field_mask,
      Function.update] <;>
    first
      | rfl
      | exact masked_store _ _ _ (land_eq_zero_of_bits _ _ 22 32
          (fun b hb => by
            obtain ⟨h1, h2⟩ := phys_shl_bits h10 h32 hb
            omega)
          (by decide))
      | exact masked_store _ _ _ (land_eq_zero_of_bits _ _ 0 12
          (fun b hb => by
            obtain ⟨h1, h2⟩ := phys_shr_bits h10 h32 hb
            omega)
          (by decide))

lemma attach_frame_3 (phys : Nat) (h10 : phys % 1024 = 0) (h32 : phys < 2 ^ 32)
    (d : Fin 16 → Nat) (w : Fin 16) :
    texture_descriptor_level_attach 3 phys d w
        &&& (0xFFFFFFFF ^^^ descriptor_field_mask 3 w)
      = d w &&& (0xFFFFFFFF ^^^ descriptor_field_mask 3 w) := by
  fin_cases w <;>
    simp only [texture_descriptor_level_attach, descriptor_field_mask,
      Function.update] <;>
    first
      | rfl
      | exact masked_store _ _ _ (land_eq_zero_of_bits _ _ 16 32
          (fun b hb => by
            obtain ⟨h1, h2⟩ := phys_shl_bits h10 h32 hb
            omega)
          (by decide))
      | exact masked_store _ _ _ (land_eq_zero_of_bits _ _ 0 6
          (fun b hb => by
            obtain ⟨h1, h2⟩ := phys_shr_bits h10 h32 hb
            omega)
          (by decide))

lemma attach_frame_4 (phys : Nat) (h10 : phys % 1024 = 0) (h32 : phys < 2 ^ 32)
    (d : Fin 16 → Nat) (w : Fin 16) :
    texture_descriptor_level_attach 4 phys d w
        &&& (0xFFFFFFFF ^^^ descriptor_field_mask 4 w)
      = d w &&& (0xFFFFFFFF ^^^ descriptor_field_mask 4 w) := by
  fin_cases w <;>
    simp only [texture_descriptor_level_attach, descriptor_field_mask,
      Function.update] <;>
    first
      | rfl
      | exact masked_store _ _ _ (land_eq_zero_of_bits _ _ 10 32
          (fun b hb => by
            obtain ⟨h1, h2⟩ := phys_mod_bits h10 h32 hb
            omega)
          (by decide))

lemma attach_frame_5 (phys : Nat) (h10 : phys % 1024 = 0) (h32 : phys < 2 ^ 32)
    (d : Fin 16 → Nat) (w : Fin 16) :
    texture_descriptor_level_attach 5 phys d w
        &&& (0xFFFFFFFF ^^^ descriptor_field_mask 5 w)
      = d w &&& (0xFFFFFFFF ^^^ descriptor_field_mask 5 w) := by
  fin_cases w <;>
    simp only [texture_descriptor_level_attach, descriptor_field_mask,
      Function.update] <;>
    first
      | rfl
      | exact masked_store _ _ _ (land_eq_zero_of_bits _ _ 4 26
          (fun b hb => by
            obtain ⟨h1, h2⟩ := phys_shr_bits h10 h32 hb
            omega)
          (by decide))

lemma attach_frame_6 (phys : Nat) (h10 : phys % 1024 = 0) (h32 : phys < 2 ^ 32)
    (d : Fin 16 → Nat) (w : Fin 16) :
    texture_descriptor_level_attach 6 phys d w
        &&& (0xFFFFFFFF ^^^ descriptor_field_mask 6 w)
      = d w &&& (0xFFFFFFFF ^^^ descriptor_field_mask 6 w) := by
  fin_cases w <;>
    simp only [texture_descriptor_level_attach, descriptor_field_mask,
      Function.update] <;>
    first
      | rfl
      | exact masked_store _ _ _ (land_eq_zero_of_bits _ _ 30 32
          (fun b hb => by
            obtain ⟨h1, h2⟩ := phys_shl_bits h10 h32 hb
            omega)
          (by decide))
      | exact masked_store _ _ _ (land_eq_zero_of_bits _ _ 0 20
          (fun b hb => by
            obtain ⟨h1, h2⟩ := phys_shr_bits h10 h32 hb
            omega)
          (by decide))

lemma attach_frame_7 (phys : Nat) (h10 : phys % 1024 = 0) (h32 : phys < 2 ^ 32)
    (d : Fin 16 → Nat) (w : Fin 16) :
    texture_descriptor_level_attach 7 phys d w
        &&& (0xFFFFFFFF ^^^ descriptor_field_mask 7 w)
      = d w &&& (0xFFFFFFFF ^^^ descriptor_field_mask 7 w) := by
  fin_cases w <;>
    simp only [texture_descriptor_level_attach, descriptor_field_mask,
      Function.update] <;>
    first
      | rfl
      | exact masked_store _ _ _ (land_eq_zero_of_bits _ _ 24 32
          (fun b hb => by
            obtain ⟨h1, h2⟩ := phys_shl_bits h10 h32 hb
            omega)
          (by decide))
      | exact masked_store _ _ _ (land_eq_zero_of_bits _ _ 0 14
          (fun b hb => by
            obtain ⟨h1, h2⟩ := phys_shr_bits h10 h32 hb
            omega)
          (by decide))

lemma attach_frame_8 (phys : Nat) (h10 : phys % 1024 = 0) (h32 : phys < 2 ^ 32)
    (d : Fin 16 → Nat) (w : Fin 16) :
    texture_descriptor_level_attach 8 phys d w
        &&& (0xFFFFFFFF ^^^ descriptor_field_mask 8 w)
      = d w &&& (0xFFFFFFFF ^^^ descriptor_field_mask 8 w) := by
  fin_cases w <;>
    simp only [texture_descriptor_level_attach, descriptor_field_mask,
      Function.update] <;>
    first
      | rfl
      | exact masked_store _ _ _ (land_eq_zero_of_bits _ _ 18 32
          (fun b hb => by
            obtain ⟨h1, h2⟩ := phys_shl_bits h10 h32 hb
            omega)
          (by decide))
      | exact masked_store _ _ _ (land_eq_zero_of_bits _ _ 0 8
          (fun b hb => by
            obtain ⟨h1, h2⟩ := phys_shr_bits h10 h32 hb
            omega)
          (by decide))

lemma attach_frame_9 (phys : Nat) (h10 : phys % 1024 = 0) (h32 : phys < 2 ^ 32)
    (d : Fin 16 → Nat) (w : Fin 16) :
    texture_descriptor_level_attach 9 phys d w
        &&& (0xFFFFFFFF ^^^ descriptor_field_mask 9 w)
      = d w &&& (0xFFFFFFFF ^^^ descriptor_field_mask 9 w) := by
  fin_cases w <;>
    simp only [texture_descriptor_level_attach, descriptor_field_mask,
      Function.update] <;>
    first
      | rfl
      | exact masked_store _ _ _ (land_eq_zero_of_bits _ _ 12 32
          (fun b hb => by
            obtain ⟨h1, h2⟩ := phys_shl_bits h10 h32 hb
            omega)
          (by decide))
      | exact masked_store _ _ _ (land_eq_zero_of_bits _ _ 0 2
          (fun b hb => by
            obtain ⟨h1, h2⟩ := phys_shr_bits h10 h32 hb
            omega)
          (by decide))

lemma attach_frame_10 (phys : Nat) (h10 : phys % 1024 = 0) (h32 : phys < 2 ^ 32)
    (d : Fin 16 → Nat) (w : Fin 16) :
    texture_descriptor_level_attach 10 phys d w
        &&& (0xFFFFFFFF ^^^ descriptor_field_mask 10 w)
      = d w &&& (0xFFFFFFFF ^^^ descriptor_field_mask 10 w) := by
  fin_cases w <;>
    simp only [texture_descriptor_level_attach, descriptor_field_mask,
      Function.update] <;>
    first
      | rfl
      | exact masked_store _ _ _ (land_eq_zero_of_bits _ _ 6 28
          (fun b hb => by
            obtain ⟨h1, h2⟩ := phys_shr_bits h10 h32 hb
            omega)
          (by decide))

/-! ### texture_create failure helpers -/

lemma texture_24_create_oversize (s : limare_state) (w h levels : Nat)
    (hfail : s.aux_mem_size - s.aux_mem_used < texture_24_total_size w h levels) :
    texture_24_create s w h levels = (none, s) := by
  simp only [texture_24_create, if_pos hfail]

lemma tc_invalid_dim (s : limare_state) (w h format : Nat) (mm : Bool)
    (hdim : 4096 < w ∨ 4096 < h) :
    texture_create s w h format mm = (none, s) := by
  simp only [texture_create, if_pos hdim]

lemma tc_bad_format (s : limare_state) (w h format : Nat) (mm : Bool)
    (hfmt : format ≠ LIMA_TEXEL_FORMAT_RGB_888) :
    texture_create s w h format mm = (none, s) := by
  by_cases hdim : 4096 < w ∨ 4096 < h
  · simp only [texture_create, if_pos hdim]
  · simp only [texture_create, if_neg hdim, if_neg hfmt]

lemma tc_oom (s : limare_state) (w h format : Nat) (mm : Bool)
    (hdim : ¬(4096 < w ∨ 4096 < h)) (hfmt : format = LIMA_TEXEL_FORMAT_RGB_888)
    (hover : s.aux_mem_size - s.aux_mem_used
      < texture_24_total_size w h (if mm then levels_loop (if h < w then w else h) else 1)) :
    texture_create s w h format mm = (none, s) := by
  simp only [texture_create, if_neg hdim, if_pos hfmt,
    texture_24_create_oversize s w h _ hover]

lemma texture_24_create_success_inv (s : limare_state) (w h levels : Nat)
    (lvls : List texture_level) (s' : limare_state)
    (hsucc : texture_24_create s w h levels = (some lvls, s')) :
    texture_24_total_size w h levels ≤ s.aux_mem_size - s.aux_mem_used ∧
    lvls = (texture_24_commit s.aux_mem_address s.aux_mem_physical s.aux_mem_used
      ((List.range levels).map (texture_24_level w h))).1 ∧
    s' = { s with aux_mem_used := s.aux_mem_used + texture_24_total_size w h levels } := by
  by_cases hc : s.aux_mem_size - s.aux_mem_used < texture_24_total_size w h levels
  · rw [texture_24_create_oversize s w h levels hc] at hsucc
    simp at hsucc
  · simp only [texture_24_create, if_neg hc, Prod.mk.injEq, Option.some.injEq] at hsucc
    have hsnd := texture_24_commit_snd s.aux_mem_address s.aux_mem_physical
      ((List.range levels).map (texture_24_level w h)) s.aux_mem_used
    rw [plan_full_sum] at hsnd
    refine ⟨by omega, hsucc.1.symm, ?_⟩
    rw [← hsucc.2, hsnd]

lemma texture_create_success_inv (s : limare_state) (w h format : Nat) (mm : Bool)
    (t : texture) (s' : limare_state)
    (hsucc : texture_create s w h format mm = (some t, s')) :
    t.levels = (if mm then levels_loop (if h < w then w else h) else 1) ∧
    t.width = w ∧ t.height = h ∧ t.format = format ∧
    texture_24_create s w h (if mm then levels_loop (if h < w then w else h) else 1)
      = (some t.level, s') := by
  by_cases hdim : 4096 < w ∨ 4096 < h
  · rw [tc_invalid_dim s w h format mm hdim] at hsucc
    simp at hsucc
  · by_cases hfmt : format = LIMA_TEXEL_FORMAT_RGB_888
    · simp only [texture_create, if_neg hdim, if_pos hfmt] at hsucc
      rcases hmatch : texture_24_create s w h
          (if mm then levels_loop (if h < w then w else h) else 1) with ⟨o, s2⟩
      rw [hmatch] at hsucc
      cases o with
      | none => simp at hsucc
      | some lv =>
        simp only [Prod.mk.injEq, Option.some.injEq] at hsucc
        obtain ⟨ht, hs⟩ := hsucc
        subst hs
        subst ht
        exact ⟨rfl, rfl, rfl, rfl, rfl⟩
    · rw [tc_bad_format s w h format mm hfmt] at hsucc
      simp at hsucc

lemma texture_24_level_size_small (w h i : Nat)
    (hw : w >>> i ≤ 16) (hh : h >>> i ≤ 16) :
    (texture_24_level w h i).size = 1024 := by
  show ALIGN (ALIGN (ALIGN (if w >>> i = 0 then 1 else w >>> i) 16 * 3) 4 *
      ALIGN (if h >>> i = 0 then 1 else h >>> i) 16) 0x400 = 1024
  generalize hga : w >>> i = a at hw ⊢
  generalize hgb : h >>> i = b at hh ⊢
  have h1 : ALIGN (if a = 0 then 1 else a) 16 = 16 := by
    simp only [ALIGN]
    split <;> omega
  have h2 : ALIGN (if b = 0 then 1 else b) 16 = 16 := by
    simp only [ALIGN]
    split <;> omega
  rw [h1, h2]
  decide

/-! ### Claim theorems -/

/-- Claim C1: for every level index i in 0..10, writing a layout-planner
physical address (1024-byte aligned, below 2 ^ 32) into the 16-word
descriptor via texture_descriptor_level_attach changes only the bits of
that level's address field (the fixed per-level rule descriptor_field_mask);
every other bit of every descriptor word keeps its pre-write value. -/
theorem texture_descriptor_level_attach_frame (i phys : Nat) (d : Fin 16 → Nat)
    (hi : i ≤ 10) (halign : phys % 1024 = 0) (hfit : phys < 2 ^ 32) (w : Fin 16) :
    texture_descriptor_level_attach i phys d w
        &&& (0xFFFFFFFF ^^^ descriptor_field_mask i w)
      = d w &&& (0xFFFFFFFF ^^^ descriptor_field_mask i w) := by
  interval_cases i
  exacts [attach_frame_0 phys halign hfit d w, attach_frame_1 phys halign hfit d w,
    attach_frame_2 phys halign hfit d w, attach_frame_3 phys halign hfit d w,
    attach_frame_4 phys halign hfit d w, attach_frame_5 phys halign hfit d w,
    attach_frame_6 phys halign hfit d w, attach_frame_7 phys halign hfit d w,
    attach_frame_8 phys halign hfit d w, attach_frame_9 phys halign hfit d w,
    attach_frame_10 phys halign hfit d w]

/-- Witness for claim C1 at level 9, a concrete aligned 32-bit address, and
descriptor word 14. -/
theorem texture_descriptor_level_attach_frame_witness :
    (9 : Nat) ≤ 10 ∧ (0x12345C00 : Nat) % 1024 = 0 ∧ (0x12345C00 : Nat) < 2 ^ 32 ∧
    texture_descriptor_level_attach 9 0x12345C00 (fun _ => 0xDEADBEEF) 14
        &&& (0xFFFFFFFF ^^^ descriptor_field_mask 9 14)
      = 0xDEADBEEF &&& (0xFFFFFFFF ^^^ descriptor_field_mask 9 14) :=
  ⟨by norm_num, by norm_num, by norm_num,
    texture_descriptor_level_attach_frame 9 0x12345C00 (fun _ => 0xDEADBEEF)
      (by norm_num) (by norm_num) (by norm_num) 14⟩

/-- Claim C5: the space filler table spreads each value's 4 bits into bit
positions 0, 2, 4, 6 and the index mapper is a bijection of the 16 x 16
tile onto 0..255: every index is below 256 and distinct coordinate pairs
get distinct indices. -/
theorem space_filler_index_bijection :
    (∀ v < 16, space_filler_indices.getD v 0
      = ((v &&& 8) <<< 3) ||| ((v &&& 4) <<< 2) ||| ((v &&& 2) <<< 1) ||| (v &&& 1)) ∧
    (∀ x < 16, ∀ y < 16, space_filler_index x y < 256) ∧
    (∀ x < 16, ∀ y < 16, ∀ x' < 16, ∀ y' < 16,
      space_filler_index x y = space_filler_index x' y' → x = x' ∧ y = y') :=
  ⟨by decide, space_filler_index_lt,
    fun _ hx _ hy _ hx' _ hy' hexy => space_filler_index_inj hx hy hx' hy' hexy⟩

/-- Witness for claim C5 at the concrete tile coordinate (7, 11). -/
theorem space_filler_index_bijection_witness :
    space_filler_index 7 11 < 256 ∧ ((7 : Nat) = 7 ∧ (11 : Nat) = 11) :=
  ⟨space_filler_index_bijection.2.1 7 (by norm_num) 11 (by norm_num),
    space_filler_index_bijection.2.2 7 (by norm_num) 11 (by norm_num) 7 (by norm_num)
      11 (by norm_num) rfl⟩

/-- Claim C8: a construction request with width above 4096 or height above
4096 fails before any arena allocation: no texture is produced and the
arena state is returned exactly unchanged. -/
theorem texture_create_invalid_dimension (s : limare_state) (w h format : Nat)
    (mm : Bool) (hdim : 4096 < w ∨ 4096 < h) :
    texture_create s w h format mm = (none, s) :=
  tc_invalid_dim s w h format mm hdim

/-- Witness for claim C8 at width 5000. -/
theorem texture_create_invalid_dimension_witness :
    ((4096 : Nat) < 5000 ∨ (4096 : Nat) < 100) ∧
    texture_create ⟨4096, 0, 0, 0⟩ 5000 100 LIMA_TEXEL_FORMAT_RGB_888 true
      = (none, ⟨4096, 0, 0, 0⟩) :=
  ⟨Or.inl (by norm_num),
    texture_create_invalid_dimension ⟨4096, 0, 0, 0⟩ 5000 100
      LIMA_TEXEL_FORMAT_RGB_888 true (Or.inl (by norm_num))⟩

/-- Claim C9: a construction request whose format selector is not the
24-bit packed RGB format fails with no texture produced and the arena
state returned exactly unchanged; texture_24_create is never reached. -/
theorem texture_create_unsupported_format (s : limare_state) (w h format : Nat)
    (mm : Bool) (hfmt : format ≠ LIMA_TEXEL_FORMAT_RGB_888) :
    texture_create s w h format mm = (none, s) :=
  tc_bad_format s w h format mm hfmt

/-- Witness for claim C9 at a non-RGB format selector. -/
theorem texture_create_unsupported_format_witness :
    (LIMA_TEXEL_FORMAT_RGB_888 + 1 ≠ LIMA_TEXEL_FORMAT_RGB_888) ∧
    texture_create ⟨4096, 0, 0, 0⟩ 100 100 (LIMA_TEXEL_FORMAT_RGB_888 + 1) true
      = (none, ⟨4096, 0, 0, 0⟩) :=
  ⟨by norm_num,
    texture_create_unsupported_format ⟨4096, 0, 0, 0⟩ 100 100
      (LIMA_TEXEL_FORMAT_RGB_888 + 1) true (by norm_num)⟩

/-- Counterexample to claim C10 as stated: an InvalidDimension failure
(width 5000) and an UnsupportedFormat failure return bit-for-bit identical
results, so the returned result alone cannot distinguish the error kinds. -/
theorem texture_create_error_kind_not_carried_cex :
    texture_create ⟨1048576, 0, 0, 0⟩ 5000 100 LIMA_TEXEL_FORMAT_RGB_888 true
      = texture_create ⟨1048576, 0, 0, 0⟩ 100 100 (LIMA_TEXEL_FORMAT_RGB_888 + 1) true :=
  rfl

/-- Claim C10 amended: every failing construction request returns the same
bare no-texture result (none together with the unchanged arena state);
the error kind is not carried by the returned result but only reported
through diagnostic logging. -/
theorem texture_create_failure_is_bare_none (s : limare_state) (w h format : Nat)
    (mm : Bool) :
    (4096 < w ∨ 4096 < h → texture_create s w h format mm = (none, s)) ∧
    (format ≠ LIMA_TEXEL_FORMAT_RGB_888 → texture_create s w h format mm = (none, s)) ∧
    (¬(4096 < w ∨ 4096 < h) → format = LIMA_TEXEL_FORMAT_RGB_888 →
      s.aux_mem_size - s.aux_mem_used < texture_24_total_size w h
        (if mm then levels_loop (if h < w then w else h) else 1) →
      texture_create s w h format mm = (none, s)) :=
  ⟨tc_invalid_dim s w h format mm, tc_bad_format s w h format mm,
    tc_oom s w h format mm⟩

/-- Witness for the amended claim C10: an out-of-memory request on a tiny
arena returns the same bare result as the other failures. -/
theorem texture_create_failure_is_bare_none_witness :
    (¬((4096 : Nat) < 64 ∨ (4096 : Nat) < 64)) ∧
    texture_create ⟨100, 0, 0, 0⟩ 64 64 LIMA_TEXEL_FORMAT_RGB_888 false
      = (none, ⟨100, 0, 0, 0⟩) :=
  ⟨by norm_num,
    (texture_create_failure_is_bare_none ⟨100, 0, 0, 0⟩ 64 64
      LIMA_TEXEL_FORMAT_RGB_888 false).2.2 (by norm_num) rfl (by decide)⟩

/-- Claim C6: for requests with dimensions in 1..4096 the mipmapped level
count computed by texture_create equals floor(log2(max(width, height))) + 1
(and 1 without mipmapping), level i measures max(1, width >>> i) by
max(1, height >>> i), and concretely 300 x 200 with mipmapping gives 9
levels with level 0 being 300 x 200 and level 8 being 1 x 1. -/
theorem texture_create_level_accounting :
    (∀ w h : Nat, 1 ≤ w → w ≤ 4096 → 1 ≤ h → h ≤ 4096 →
      levels_loop (if h < w then w else h) = Nat.log 2 (max w h) + 1) ∧
    (∀ w h i : Nat, (texture_24_level w h i).width = max 1 (w >>> i) ∧
      (texture_24_level w h i).height = max 1 (h >>> i)) ∧
    (∀ (s : limare_state) (w h format : Nat) (mm : Bool) (t : texture)
      (s' : limare_state), 1 ≤ w → w ≤ 4096 → 1 ≤ h → h ≤ 4096 →
      texture_create s w h format mm = (some t, s') →
      t.levels = if mm then Nat.log 2 (max w h) + 1 else 1) ∧
    levels_loop (if (200 : Nat) < 300 then 300 else 200) = 9 ∧
    (texture_24_level 300 200 0).width = 300 ∧
    (texture_24_level 300 200 0).height = 200 ∧
    (texture_24_level 300 200 8).width = 1 ∧
    (texture_24_level 300 200 8).height = 1 := by
  have hcount : ∀ w h : Nat, 1 ≤ w → w ≤ 4096 → 1 ≤ h → h ≤ 4096 →
      levels_loop (if h < w then w else h) = Nat.log 2 (max w h) + 1 := by
    intro w h hw1 hw4 hh1 hh4
    have hif : (if h < w then w else h) = max w h := by
      split <;> omega
    rw [hif]
    exact levels_loop_eq_log (max w h) (by omega)
  refine ⟨hcount, ?_, ?_, by decide, by decide, by decide, by decide, by decide⟩
  · intro w h i
    exact ⟨texture_24_level_width_eq w h i, texture_24_level_height_eq w h i⟩
  · intro s w h format mm t s' hw1 hw4 hh1 hh4 hsucc
    have hlev := (texture_create_success_inv s w h format mm t s' hsucc).1
    rw [hlev]
    cases mm
    · simp
    · simpa using hcount w h hw1 hw4 hh1 hh4

/-- Witness for claim C6: the count formula at 300 x 200 and a successful
1 x 1 non-mipmapped construction whose level count is 1. -/
theorem texture_create_level_accounting_witness :
    levels_loop (if (200 : Nat) < 300 then 300 else 200)
        = Nat.log 2 (max 300 200) + 1 ∧
    (∃ t s', texture_create ⟨2048, 0, 0, 0⟩ 1 1 LIMA_TEXEL_FORMAT_RGB_888 false
        = (some t, s') ∧
      t.levels = if false then Nat.log 2 (max 1 1) + 1 else 1) := by
  constructor
  · exact texture_create_level_accounting.1 300 200 (by norm_num) (by norm_num)
      (by norm_num) (by norm_num)
  · refine ⟨_, _, rfl, ?_⟩
    exact texture_create_level_accounting.2.2.1 ⟨2048, 0, 0, 0⟩ 1 1
      LIMA_TEXEL_FORMAT_RGB_888 false _ _ (by norm_num) (by norm_num)
      (by norm_num) (by norm_num) rfl

/-- Claim C2: if the summed aligned level sizes exceed the arena's
remaining capacity, texture_24_create fails returning the arena state
exactly unchanged; otherwise it succeeds, advances aux_mem_used by exactly
the total size once, and assigns every level a region at the fixed prefix
offset, in level order, with consecutive levels disjoint. -/
theorem texture_24_create_capacity_atomic (s : limare_state) (w h levels : Nat) :
    (s.aux_mem_size - s.aux_mem_used < texture_24_total_size w h levels →
      texture_24_create s w h levels = (none, s)) ∧
    (texture_24_total_size w h levels ≤ s.aux_mem_size - s.aux_mem_used →
      ∃ lvls, texture_24_create s w h levels
          = (some lvls, { s with
              aux_mem_used := s.aux_mem_used + texture_24_total_size w h levels }) ∧
        lvls.length = levels ∧
        (∀ i, i < levels →
          (lvls.getD i default).mem_physical
              = s.aux_mem_physical + s.aux_mem_used + texture_24_total_size w h i ∧
          (lvls.getD i default).dest
              = s.aux_mem_address + s.aux_mem_used + texture_24_total_size w h i ∧
          (lvls.getD i default).size = (texture_24_level w h i).size) ∧
        (∀ i j, i < j → j < levels →
          (lvls.getD i default).mem_physical + (lvls.getD i default).size
            ≤ (lvls.getD j default).mem_physical)) := by
  constructor
  · exact texture_24_create_oversize s w h levels
  · intro hok
    have hnot : ¬(s.aux_mem_size - s.aux_mem_used < texture_24_total_size w h levels) := by
      omega
    refine ⟨(texture_24_commit s.aux_mem_address s.aux_mem_physical s.aux_mem_used
      ((List.range levels).map (texture_24_level w h))).1, ?_, ?_, ?_, ?_⟩
    · simp only [texture_24_create]
      rw [if_neg hnot]
      have hsnd := texture_24_commit_snd s.aux_mem_address s.aux_mem_physical
        ((List.range levels).map (texture_24_level w h)) s.aux_mem_used
      rw [plan_full_sum] at hsnd
      rw [hsnd]
    · rw [texture_24_commit_length]
      simp
    · intro i hi
      have hlen : i < ((List.range levels).map (texture_24_level w h)).length := by
        simp [hi]
      refine ⟨?_, ?_, ?_⟩
      · rw [texture_24_commit_getD_phys _ _ _ _ _ hlen,
          plan_take_sum w h levels i (by omega)]
      · rw [texture_24_commit_getD_dest _ _ _ _ _ hlen,
          plan_take_sum w h levels i (by omega)]
      · rw [texture_24_commit_getD_size _ _ _ _ _ hlen, plan_getD w h levels i hi]
    · intro i j hij hj
      have hleni : i < ((List.range levels).map (texture_24_level w h)).length := by
        simp
        omega
      have hlenj : j < ((List.range levels).map (texture_24_level w h)).length := by
        simp [hj]
      rw [texture_24_commit_getD_phys _ _ _ _ _ hleni,
        texture_24_commit_getD_phys _ _ _ _ _ hlenj,
        texture_24_commit_getD_size _ _ _ _ _ hleni,
        plan_getD w h levels i (by omega),
        plan_take_sum w h levels i (by omega),
        plan_take_sum w h levels j (by omega)]
      have hsucc := texture_24_total_size_succ w h i
      have hmono := texture_24_total_size_mono w h (show i + 1 ≤ j by omega)
      omega

/-- Witness for claim C2: a failing construction on a 100-byte arena and a
successful one on a 2048-byte arena, both for a 1 x 1 single-level texture
whose only level needs 1024 bytes. -/
theorem texture_24_create_capacity_atomic_witness :
    ((⟨100, 0, 0, 0⟩ : limare_state).aux_mem_size
        - (⟨100, 0, 0, 0⟩ : limare_state).aux_mem_used
        < texture_24_total_size 1 1 1 ∧
      texture_24_create ⟨100, 0, 0, 0⟩ 1 1 1 = (none, ⟨100, 0, 0, 0⟩)) ∧
    (texture_24_total_size 1 1 1
        ≤ (⟨2048, 0, 4096, 65536⟩ : limare_state).aux_mem_size
          - (⟨2048, 0, 4096, 65536⟩ : limare_state).aux_mem_used ∧
      ∃ lvls, texture_24_create ⟨2048, 0, 4096, 65536⟩ 1 1 1
          = (some lvls, ⟨2048, 0 + texture_24_total_size 1 1 1, 4096, 65536⟩) ∧
        lvls.length = 1 ∧
        (∀ i, i < 1 →
          (lvls.getD i default).mem_physical
              = 65536 + 0 + texture_24_total_size 1 1 i ∧
          (lvls.getD i default).dest = 4096 + 0 + texture_24_total_size 1 1 i ∧
          (lvls.getD i default).size = (texture_24_level 1 1 i).size) ∧
        (∀ i j, i < j → j < 1 →
          (lvls.getD i default).mem_physical + (lvls.getD i default).size
            ≤ (lvls.getD j default).mem_physical)) :=
  ⟨⟨by decide, (texture_24_create_capacity_atomic ⟨100, 0, 0, 0⟩ 1 1 1).1 (by decide)⟩,
    ⟨by decide,
      (texture_24_create_capacity_atomic ⟨2048, 0, 4096, 65536⟩ 1 1 1).2 (by decide)⟩⟩

/-- Claim C3: in every successfully constructed texture with more than 12
levels (dimensions at most 4096), levels 10, 11 and 12 are exactly 1024
bytes each and are laid out consecutively: level 11 sits 1024 bytes after
level 10 and level 12 sits 2048 bytes after level 10. -/
theorem texture_24_create_tail_levels_adjacent (s : limare_state)
    (w h levels : Nat) (hw : w ≤ 4096) (hh : h ≤ 4096) (h12 : 12 < levels)
    (lvls : List texture_level) (s' : limare_state)
    (hsucc : texture_24_create s w h levels = (some lvls, s')) :
    (lvls.getD 10 default).size = 1024 ∧
    (lvls.getD 11 default).size = 1024 ∧
    (lvls.getD 12 default).size = 1024 ∧
    (lvls.getD 11 default).mem_physical = (lvls.getD 10 default).mem_physical + 1024 ∧
    (lvls.getD 12 default).mem_physical = (lvls.getD 10 default).mem_physical + 2048 := by
  obtain ⟨-, hlv, -⟩ := texture_24_create_success_inv s w h levels lvls s' hsucc
  subst hlv
  have hw10 : w >>> 10 ≤ 16 := by
    rw [Nat.shiftRight_eq_div_pow]
    omega
  have hh10 : h >>> 10 ≤ 16 := by
    rw [Nat.shiftRight_eq_div_pow]
    omega
  have hw11 : w >>> 11 ≤ 16 := by
    rw [Nat.shiftRight_eq_div_pow]
    omega
  have hh11 : h >>> 11 ≤ 16 := by
    rw [Nat.shiftRight_eq_div_pow]
    omega
  have hw12 : w >>> 12 ≤ 16 := by
    rw [Nat.shiftRight_eq_div_pow]
    omega
  have hh12 : h >>> 12 ≤ 16 := by
    rw [Nat.shiftRight_eq_div_pow]
    omega
  have hs10 := texture_24_level_size_small w h 10 hw10 hh10
  have hs11 := texture_24_level_size_small w h 11 hw11 hh11
  have hlen : ∀ i, i < levels →
      i < ((List.range levels).map (texture_24_level w h)).length := by
    intro i hi
    simp [hi]
  rw [texture_24_commit_getD_size _ _ _ _ _ (hlen 10 (by omega)),
    texture_24_commit_getD_size _ _ _ _ _ (hlen 11 (by omega)),
    texture_24_commit_getD_size _ _ _ _ _ (hlen 12 (by omega)),
    texture_24_commit_getD_phys _ _ _ _ _ (hlen 10 (by omega)),
    texture_24_commit_getD_phys _ _ _ _ _ (hlen 11 (by omega)),
    texture_24_commit_getD_phys _ _ _ _ _ (hlen 12 (by omega)),
    plan_getD w h levels 10 (by omega), plan_getD w h levels 11 (by omega),
    plan_getD w h levels 12 (by omega),
    plan_take_sum w h levels 10 (by omega), plan_take_sum w h levels 11 (by omega),
    plan_take_sum w h levels 12 (by omega)]
  have h11eq := texture_24_total_size_succ w h 10
  have h12eq := texture_24_total_size_succ w h 11
  norm_num at h11eq h12eq
  refine ⟨hs10, hs11, texture_24_level_size_small w h 12 hw12 hh12, ?_, ?_⟩ <;> omega

/-- Witness for claim C3: a successful 13-level 4096 x 4096 construction
on a 128 MiB arena places levels 11 and 12 right after level 10 at the
fixed 1024-byte stride. -/
theorem texture_24_create_tail_levels_adjacent_witness :
    (4096 : Nat) ≤ 4096 ∧ (12 : Nat) < 13 ∧
    ∃ lvls s', texture_24_create ⟨134217728, 0, 0, 0⟩ 4096 4096 13
        = (some lvls, s') ∧
      (lvls.getD 10 default).size = 1024 ∧
      (lvls.getD 11 default).size = 1024 ∧
      (lvls.getD 12 default).size = 1024 ∧
      (lvls.getD 11 default).mem_physical
          = (lvls.getD 10 default).mem_physical + 1024 ∧
      (lvls.getD 12 default).mem_physical
          = (lvls.getD 10 default).mem_physical + 2048 := by
  refine ⟨by norm_num, by norm_num, _, _, rfl, ?_⟩
  exact texture_24_create_tail_levels_adjacent ⟨134217728, 0, 0, 0⟩ 4096 4096 13
    (by norm_num) (by norm_num) (by norm_num) _ _ rfl

/-- Claim C4: every pixel of mip level k + 1, per channel, is the
truncating integer average of the full window of level k selected by
level k's dimensions: two vertically adjacent texels when the prior width
is 1, two horizontally adjacent texels when the prior height is 1, and
otherwise the 2 x 2 block at (2x, 2y), all read at the swizzled source
addresses that the fixed byte offsets 0, 3, 6, 9 from the single swizzled
source address denote. -/
theorem texture_24_mipmap_window_average (w h : Nat) (pixels junk : Nat → Nat)
    (k : Nat) {x y c : Nat}
    (hx : x < (texture_24_level w h (k + 1)).width)
    (hy : y < (texture_24_level w h (k + 1)).height) (hc : c < 3) :
    texture_24_contents w h pixels junk (k + 1)
        (swizzled_offset (ALIGN (texture_24_level w h (k + 1)).width 16 >>> 4) x y + c)
      = (let srcMem := texture_24_contents w h pixels junk k
         let sbp := ALIGN (texture_24_level w h k).width 16 >>> 4
         if (texture_24_level w h k).width = 1 then
           (srcMem (swizzled_offset sbp 0 (2 * y) + c) +
             srcMem (swizzled_offset sbp 0 (2 * y + 1) + c)) / 2
         else if (texture_24_level w h k).height = 1 then
           (srcMem (swizzled_offset sbp (2 * x) 0 + c) +
             srcMem (swizzled_offset sbp (2 * x + 1) 0 + c)) / 2
         else
           (srcMem (swizzled_offset sbp (2 * x) (2 * y) + c) +
             srcMem (swizzled_offset sbp (2 * x + 1) (2 * y) + c) +
             srcMem (swizzled_offset sbp (2 * x + 1) (2 * y + 1) + c) +
             srcMem (swizzled_offset sbp (2 * x) (2 * y + 1) + c)) / 4) := by
  simp only [texture_24_contents]
  exact mipmap_pixel _ _ _ _ (texture_24_level_width_step w h k)
    (texture_24_level_height_step w h k) hx hy hc

/-- Witness for claim C4: level 1 of a 2 x 2 texture, pixel (0, 0),
channel 0, over a concrete source memory. -/
theorem texture_24_mipmap_window_average_witness :
    0 < (texture_24_level 2 2 1).width ∧ 0 < (texture_24_level 2 2 1).height ∧
    (0 : Nat) < 3 ∧
    (texture_24_contents 2 2 (fun a => a % 251) (fun _ => 0) 1
        (swizzled_offset (ALIGN (texture_24_level 2 2 1).width 16 >>> 4) 0 0 + 0)
      = (let srcMem := texture_24_contents 2 2 (fun a => a % 251) (fun _ => 0) 0
         let sbp := ALIGN (texture_24_level 2 2 0).width 16 >>> 4
         if (texture_24_level 2 2 0).width = 1 then
           (srcMem (swizzled_offset sbp 0 (2 * 0) + 0) +
             srcMem (swizzled_offset sbp 0 (2 * 0 + 1) + 0)) / 2
         else if (texture_24_level 2 2 0).height = 1 then
           (srcMem (swizzled_offset sbp (2 * 0) 0 + 0) +
             srcMem (swizzled_offset sbp (2 * 0 + 1) 0 + 0)) / 2
         else
           (srcMem (swizzled_offset sbp (2 * 0) (2 * 0) + 0) +
             srcMem (swizzled_offset sbp (2 * 0 + 1) (2 * 0) + 0) +
             srcMem (swizzled_offset sbp (2 * 0 + 1) (2 * 0 + 1) + 0) +
             srcMem (swizzled_offset sbp (2 * 0) (2 * 0 + 1) + 0)) / 4)) :=
  ⟨by decide, by decide, by decide,
    texture_24_mipmap_window_average 2 2 (fun a => a % 251) (fun _ => 0) 0
      (by decide) (by decide) (by decide)⟩

/-- Claim C7: a successfully constructible texture whose source image is a
single uniform color has every generated mip level equal to exactly that
color at every valid pixel of that level. -/
theorem texture_24_contents_uniform_color (w h : Nat)
    (color pixels junk : Nat → Nat)
    (hw1 : 1 ≤ w) (hw4 : w ≤ 4096) (hh1 : 1 ≤ h) (hh4 : h ≤ 4096)
    (huni : ∀ x < w, ∀ y < h, ∀ c < 3,
      pixels (y * ALIGN (w * 3) 4 + 3 * x + c) = color c)
    (k : Nat) (hk1 : 1 ≤ k) (hk : k < levels_loop (if h < w then w else h))
    (x y c : Nat) (hx : x < (texture_24_level w h k).width)
    (hy : y < (texture_24_level w h k).height) (hc : c < 3) :
    texture_24_contents w h pixels junk k
        (swizzled_offset (ALIGN (texture_24_level w h k).width 16 >>> 4) x y + c)
      = color c := by
  have hif : (if h < w then w else h) = max w h := by
    split <;> omega
  rw [hif] at hk
  exact contents_uniform w h color pixels junk hw1 hh1
    (fun x y c hx hy hc => huni x hx y hy c hc) k hk x y c hx hy hc

/-- Witness for claim C7: a uniform 2 x 2 source image, its single
generated mip level (level 1), pixel (0, 0), channel 2. -/
theorem texture_24_contents_uniform_color_witness :
    (1 : Nat) ≤ 2 ∧ (1 : Nat) ≤ levels_loop (if (2 : Nat) < 2 then 2 else 2) - 1 ∧
    texture_24_contents 2 2 (fun a => a % 8 % 3) (fun _ => 99) 1
        (swizzled_offset (ALIGN (texture_24_level 2 2 1).width 16 >>> 4) 0 0 + 2)
      = 2 % 3 :=
  ⟨by norm_num, by decide,
    texture_24_contents_uniform_color 2 2 (fun c => c % 3) (fun a => a % 8 % 3)
      (fun _ => 99) (by norm_num) (by norm_num) (by norm_num) (by norm_num)
      (by decide) 1 (by norm_num) (by decide) 0 0 2 (by decide) (by decide)
      (by norm_num)⟩
